import Mathlib

/-!
# Verification development for the banzai bzip2 encoder

Shallow embedding of the core pipeline of the `banzai` bzip2 encoder
(first-stage RLE, cyclic BWT via SA-IS, MTF+RLE2, multi-table Huffman
coding) together with theorems settling the specification claims.

Machine integers of the source are modelled as `Nat` (for `usize`/`u8`/
`u16`/`u32` values, whose arithmetic never overflows on the paths we
reason about, except where noted) and as `Int` for the signed `i32`
suffix-array entries, where bitwise NOT (`!x` in Rust) is `-(x+1)`.
`Vec` buffers read/written at cursor positions are modelled as `List`s;
byte-indexed tables (bucket sizes, bucket pointers, presence maps,
frequency tables) are modelled as total maps `Nat → _` updated
pointwise, which is extensionally what the in-bounds array code does.
-/

set_option maxHeartbeats 1000000
set_option maxRecDepth 40000

/-- Pointwise update of a total map, the model of an in-bounds array write. -/
@[noinline] def upd {α : Type} (f : Nat → α) (i : Nat) (v : α) : Nat → α :=
  fun j => if j = i then v else f j

theorem upd_same {α : Type} (f : Nat → α) (i : Nat) (v : α) : upd f i v i = v := by
  simp [upd]

theorem upd_other {α : Type} (f : Nat → α) (i j : Nat) (v : α) (h : j ≠ i) :
    upd f i v j = f j := by
  simp [upd, h]

namespace Rle

/-!
## First-stage RLE (`lib/rle.rs`)

`rle_one` pulls bytes from the reader and emits at most
`100_000 * level - 1` bytes of run-length-encoded data.  The reader is
modelled by the byte sequence it yields: `InputStream::init` buffers the
available input and `margin_call` reports how many bytes of look-ahead
remain (capped at 256), exactly as the source does for a reader that is
drained by the successive `fill_buf` calls.
-/

/-- `BoundedBuffer` of `lib/rle.rs`: a buffer that must not exceed its bound.
The `violated` flag records whether `push` was ever invoked with `bound == 0`
(the situation `debug_assert!(self.bound > 0)` rules out; the `usize`
subtraction `self.bound -= 1` would underflow there). -/
structure BoundedBuffer where
  bound : Nat
  buffer : List Nat
  violated : Bool

/-- `BoundedBuffer::push`. -/
def BoundedBuffer.push (out : BoundedBuffer) (byte : Nat) : BoundedBuffer :=
  { bound := out.bound - 1
    buffer := out.buffer ++ [byte]
    violated := out.violated || decide (out.bound = 0) }

/-- `InputStream::margin_call` for a drained reader: the remaining
look-ahead `n - i`, capped at 256. -/
def margin_call (n i : Nat) : Nat :=
  if n - i < 256 then n - i else 256

/-- The inner `while rep_count < 251` loop of `rle_one`: starting at index
`i`, count further repeats of byte `b` (at most `251`), returning the final
`rep_count` and index. -/
def repCount (raw : List Nat) (b : Nat) (i : Nat) (cnt : Nat) : Nat × Nat :=
  if _h : cnt < 251 then
    match raw[i]? with
    | some r => if b = r then repCount raw b (i + 1) (cnt + 1) else (cnt, i)
    | none => (cnt, i)
  else (cnt, i)
termination_by 251 - cnt

theorem repCount_le_i (raw : List Nat) (b : Nat) :
    ∀ i cnt, i ≤ (repCount raw b i cnt).2 := by
  intro i cnt
  induction i, cnt using repCount.induct raw b with
  | case1 i cnt h hr ih =>
    rw [repCount]
    simp only [h, dif_pos, hr, if_pos rfl, if_true]
    omega
  | case2 i cnt h r hr hb =>
    rw [repCount]
    simp [h, hr, hb]
  | case3 i cnt h hr =>
    rw [repCount]
    simp [h, hr]
  | case4 i cnt h =>
    rw [repCount]
    simp [h]

theorem repCount_le_n (raw : List Nat) (b : Nat) :
    ∀ i cnt, i ≤ raw.length → (repCount raw b i cnt).2 ≤ raw.length := by
  intro i cnt
  induction i, cnt using repCount.induct raw b with
  | case1 i cnt h hr ih =>
    intro _
    rw [repCount]
    simp only [h, dif_pos, hr, if_pos rfl, if_true]
    refine ih ?_
    by_contra hc
    rw [List.getElem?_eq_none (by omega)] at hr
    exact Option.noConfusion hr
  | case2 i cnt h r hr hb =>
    intro hi
    rw [repCount]
    simp [h, hr, hb, hi]
  | case3 i cnt h hr =>
    intro hi
    rw [repCount]
    simp [h, hr, hi]
  | case4 i cnt h =>
    intro hi
    rw [repCount]
    simp [h, hi]

theorem margin_call_le (n i : Nat) (h : 3 ≤ margin_call n i) : i + 3 ≤ n := by
  unfold margin_call at h
  by_cases h' : n - i < 256 <;> simp [h'] at h <;> omega

/-- The main encoding loop of `rle_one` (`lib/rle.rs`, lines 122-229):
walk `raw` two bytes at a time, recognising runs of four or more repeats
and encoding them as four literal bytes plus a count byte in `[0, 251]`.
Returns the output buffer and the final index `i` (the consumed count).
The `margin_call` value `0` is `unreachable!()` in the source; the model
simply exits there. -/
def rleLoop (raw : List Nat) (n : Nat) (i b floor : Nat) (out : BoundedBuffer) :
    BoundedBuffer × Nat :=
  match out.bound with
  | 0 => (out, i)
  | 1 => (out.push b, i + 1)
  | _ + 2 =>
    if _hd : margin_call n i ≤ 2 then
      /- the `0`, `1` and `2` arms of the source's `match` on `margin_call`;
         `0` is `unreachable!()` there and the model simply exits -/
      if margin_call n i = 1 then (out.push b, i + 1)
      else if margin_call n i = 2 then
        ((out.push b).push (raw.getD (i + 1) 0), i + 2)
      else (out.push b, i)
    else
      if b = raw.getD (i + 2) 0 ∧ b = raw.getD (i + 1) 0 then
        if i > floor ∧ b = raw.getD (i - 1) 0 then
          /- run of the form [i-1, i, i+1, i+2] -/
          if ((out.push b).push (raw.getD (i + 1) 0)).bound < 2 then
            ((out.push b).push (raw.getD (i + 1) 0), i + 2)
          else
            if (repCount raw b (i + 3) 0).2 ≥ n then
              ((((out.push b).push (raw.getD (i + 1) 0)).push (raw.getD (i + 2) 0)).push
                  (repCount raw b (i + 3) 0).1,
                (repCount raw b (i + 3) 0).2)
            else
              rleLoop raw n (repCount raw b (i + 3) 0).2
                (raw.getD (repCount raw b (i + 3) 0).2 0) (repCount raw b (i + 3) 0).2
                ((((out.push b).push (raw.getD (i + 1) 0)).push (raw.getD (i + 2) 0)).push
                  (repCount raw b (i + 3) 0).1)
        else if i + 3 < n ∧ b = raw.getD (i + 3) 0 then
          /- run of the form [i, i+1, i+2, i+3] -/
          if ((out.push b).push (raw.getD (i + 1) 0)).bound = 0 then
            ((out.push b).push (raw.getD (i + 1) 0), i + 2)
          else
            if (((out.push b).push (raw.getD (i + 1) 0)).push (raw.getD (i + 2) 0)).bound < 2 then
              ((((out.push b).push (raw.getD (i + 1) 0)).push (raw.getD (i + 2) 0)), i + 3)
            else
              if (repCount raw b (i + 4) 0).2 ≥ n then
                ((((((out.push b).push (raw.getD (i + 1) 0)).push (raw.getD (i + 2) 0)).push
                      (raw.getD (i + 3) 0)).push (repCount raw b (i + 4) 0).1),
                  (repCount raw b (i + 4) 0).2)
              else
                rleLoop raw n (repCount raw b (i + 4) 0).2
                  (raw.getD (repCount raw b (i + 4) 0).2 0) (repCount raw b (i + 4) 0).2
                  ((((((out.push b).push (raw.getD (i + 1) 0)).push (raw.getD (i + 2) 0)).push
                      (raw.getD (i + 3) 0)).push (repCount raw b (i + 4) 0).1))
        else
          rleLoop raw n (i + 2) (raw.getD (i + 2) 0) floor
            ((out.push b).push (raw.getD (i + 1) 0))
      else
        rleLoop raw n (i + 2) (raw.getD (i + 2) 0) floor
          ((out.push b).push (raw.getD (i + 1) 0))
termination_by n - i
decreasing_by
  · have h1 : i + 3 ≤ n := margin_call_le n i (by omega)
    have h2 := repCount_le_i raw b (i + 3) 0
    omega
  · have h1 : i + 3 ≤ n := margin_call_le n i (by omega)
    have h2 := repCount_le_i raw b (i + 4) 0
    omega
  · have _h1 : i + 3 ≤ n := margin_call_le n i (by omega)
    omega
  · have _h1 : i + 3 ≤ n := margin_call_le n i (by omega)
    omega

theorem rleLoop_ok (raw : List Nat) (n : Nat) :
    ∀ i b floor out, out.violated = false →
      ((rleLoop raw n i b floor out).1.violated = false) ∧
      ((rleLoop raw n i b floor out).1.buffer.length + (rleLoop raw n i b floor out).1.bound
        = out.buffer.length + out.bound) := by
  intro i b floor out
  induction i, b, floor, out using rleLoop.induct raw n with
  | case1 i b floor out h =>
    intro hv
    rw [rleLoop]
    simp [h, hv]
  | case2 i b floor out h =>
    intro hv
    rw [rleLoop]
    simp [h, hv, BoundedBuffer.push]
  | case3 i b floor out n1 h hd hm =>
    intro hv
    rw [rleLoop]
    simp [h, hd, hm, hv, BoundedBuffer.push]
    omega
  | case4 i b floor out n1 h hd hm1 hm2 =>
    intro hv
    rw [rleLoop]
    simp [h, hd, hm1, hm2, hv, BoundedBuffer.push]
    omega
  | case5 i b floor out n1 h hd hm1 hm2 =>
    intro hv
    rw [rleLoop]
    simp [h, hd, hm1, hm2, hv, BoundedBuffer.push]
    omega
  | case6 i b floor out n1 h hd hcond hback hb2 =>
    intro hv
    have hb2' : n1 < 2 := by simpa [BoundedBuffer.push, h] using hb2
    rw [rleLoop]
    simp only [h]
    split_ifs <;>
      simp_all [BoundedBuffer.push, Bool.or_eq_false_iff, decide_eq_false_iff_not] <;>
      omega
  | case7 i b floor out n1 h hd hcond hback hb2 hge =>
    intro hv
    have hb2' : ¬ n1 < 2 := by simpa [BoundedBuffer.push, h] using hb2
    rw [rleLoop]
    simp only [h]
    split_ifs <;>
      simp_all [BoundedBuffer.push, Bool.or_eq_false_iff, decide_eq_false_iff_not] <;>
      omega
  | case8 i b floor out n1 h hd hcond hback hb2 hge ih =>
    intro hv
    have hb2' : ¬ n1 < 2 := by simpa [BoundedBuffer.push, h] using hb2
    have hrec := ih (by
      simp [BoundedBuffer.push, h, hv, Bool.or_eq_false_iff, decide_eq_false_iff_not]
      try omega)
    rw [rleLoop]
    simp only [h]
    split_ifs <;>
      simp_all [BoundedBuffer.push, Bool.or_eq_false_iff, decide_eq_false_iff_not] <;>
      omega
  | case9 i b floor out n1 h hd hcond hback hfwd hb0 =>
    intro hv
    have hb0' : n1 = 0 := by simpa [BoundedBuffer.push, h] using hb0
    rw [rleLoop]
    simp only [h]
    split_ifs <;>
      simp_all [BoundedBuffer.push, Bool.or_eq_false_iff, decide_eq_false_iff_not] <;>
      omega
  | case10 i b floor out n1 h hd hcond hback hfwd hb0 hb3 =>
    intro hv
    have hb0' : ¬ n1 = 0 := by simpa [BoundedBuffer.push, h] using hb0
    have hb3' : n1 - 1 < 2 := by simpa [BoundedBuffer.push, h] using hb3
    rw [rleLoop]
    simp only [h]
    split_ifs <;>
      simp_all [BoundedBuffer.push, Bool.or_eq_false_iff, decide_eq_false_iff_not] <;>
      omega
  | case11 i b floor out n1 h hd hcond hback hfwd hb0 hb3 hge =>
    intro hv
    have hb0' : ¬ n1 = 0 := by simpa [BoundedBuffer.push, h] using hb0
    have hb3' : ¬ n1 - 1 < 2 := by simpa [BoundedBuffer.push, h] using hb3
    rw [rleLoop]
    simp only [h]
    split_ifs <;>
      simp_all [BoundedBuffer.push, Bool.or_eq_false_iff, decide_eq_false_iff_not] <;>
      omega
  | case12 i b floor out n1 h hd hcond hback hfwd hb0 hb3 hge ih =>
    intro hv
    have hb0' : ¬ n1 = 0 := by simpa [BoundedBuffer.push, h] using hb0
    have hb3' : ¬ n1 - 1 < 2 := by simpa [BoundedBuffer.push, h] using hb3
    have hrec := ih (by
      simp [BoundedBuffer.push, h, hv, Bool.or_eq_false_iff, decide_eq_false_iff_not]
      try omega)
    rw [rleLoop]
    simp only [h]
    split_ifs <;>
      simp_all [BoundedBuffer.push, Bool.or_eq_false_iff, decide_eq_false_iff_not] <;>
      omega
  | case13 i b floor out n1 h hd hcond hback hfwd ih =>
    intro hv
    have hrec := ih (by
      simp [BoundedBuffer.push, h, hv, Bool.or_eq_false_iff, decide_eq_false_iff_not]
      try omega)
    rw [rleLoop]
    simp only [h]
    split_ifs <;>
      simp_all [BoundedBuffer.push, Bool.or_eq_false_iff, decide_eq_false_iff_not] <;>
      omega
  | case14 i b floor out n1 h hd hcond ih =>
    intro hv
    have hrec := ih (by
      simp [BoundedBuffer.push, h, hv, Bool.or_eq_false_iff, decide_eq_false_iff_not]
      try omega)
    rw [rleLoop]
    simp only [h]
    split_ifs <;>
      simp_all [BoundedBuffer.push, Bool.or_eq_false_iff, decide_eq_false_iff_not] <;>
      omega


theorem rleLoop_i_mono (raw : List Nat) (n : Nat) :
    ∀ i b floor out, i ≤ (rleLoop raw n i b floor out).2 := by
  intro i b floor out
  induction i, b, floor, out using rleLoop.induct raw n with
  | case1 i b floor out h =>
    rw [rleLoop]; simp [h]
  | case2 i b floor out h =>
    rw [rleLoop]; simp [h]
  | case3 i b floor out n1 h hd hm =>
    rw [rleLoop]; simp [h, hd, hm]
  | case4 i b floor out n1 h hd hm1 hm2 =>
    rw [rleLoop]; simp [h, hd, hm1, hm2]
  | case5 i b floor out n1 h hd hm1 hm2 =>
    rw [rleLoop]; simp [h, hd, hm1, hm2]
  | case6 i b floor out n1 h hd hcond hback hb2 =>
    have hb2' : n1 < 2 := by simpa [BoundedBuffer.push, h] using hb2
    rw [rleLoop]; simp only [h]
    split_ifs <;> simp_all [BoundedBuffer.push] <;> omega
  | case7 i b floor out n1 h hd hcond hback hb2 hge =>
    have hb2' : ¬ n1 < 2 := by simpa [BoundedBuffer.push, h] using hb2
    have hrc := repCount_le_i raw b (i + 3) 0
    rw [rleLoop]; simp only [h]
    split_ifs <;> simp_all [BoundedBuffer.push] <;> omega
  | case8 i b floor out n1 h hd hcond hback hb2 hge ih =>
    have hb2' : ¬ n1 < 2 := by simpa [BoundedBuffer.push, h] using hb2
    have hrc := repCount_le_i raw b (i + 3) 0
    rw [rleLoop]; simp only [h]
    split_ifs <;> simp_all [BoundedBuffer.push] <;> omega
  | case9 i b floor out n1 h hd hcond hback hfwd hb0 =>
    have hb0' : n1 = 0 := by simpa [BoundedBuffer.push, h] using hb0
    rw [rleLoop]; simp only [h]
    split_ifs <;> simp_all [BoundedBuffer.push] <;> omega
  | case10 i b floor out n1 h hd hcond hback hfwd hb0 hb3 =>
    have hb0' : ¬ n1 = 0 := by simpa [BoundedBuffer.push, h] using hb0
    have hb3' : n1 - 1 < 2 := by simpa [BoundedBuffer.push, h] using hb3
    rw [rleLoop]; simp only [h]
    split_ifs <;> simp_all [BoundedBuffer.push] <;> omega
  | case11 i b floor out n1 h hd hcond hback hfwd hb0 hb3 hge =>
    have hb0' : ¬ n1 = 0 := by simpa [BoundedBuffer.push, h] using hb0
    have hb3' : ¬ n1 - 1 < 2 := by simpa [BoundedBuffer.push, h] using hb3
    have hrc := repCount_le_i raw b (i + 4) 0
    rw [rleLoop]; simp only [h]
    split_ifs <;> simp_all [BoundedBuffer.push] <;> omega
  | case12 i b floor out n1 h hd hcond hback hfwd hb0 hb3 hge ih =>
    have hb0' : ¬ n1 = 0 := by simpa [BoundedBuffer.push, h] using hb0
    have hb3' : ¬ n1 - 1 < 2 := by simpa [BoundedBuffer.push, h] using hb3
    have hrc := repCount_le_i raw b (i + 4) 0
    rw [rleLoop]; simp only [h]
    split_ifs <;> simp_all [BoundedBuffer.push] <;> omega
  | case13 i b floor out n1 h hd hcond hback hfwd ih =>
    rw [rleLoop]; simp only [h]
    split_ifs <;> simp_all [BoundedBuffer.push] <;> omega
  | case14 i b floor out n1 h hd hcond ih =>
    rw [rleLoop]; simp only [h]
    split_ifs <;> simp_all [BoundedBuffer.push] <;> omega

theorem margin_call_eq_one (n i : Nat) (h : margin_call n i = 1) : n = i + 1 := by
  unfold margin_call at h
  by_cases h' : n - i < 256 <;> simp [h'] at h <;> omega

theorem margin_call_eq_two (n i : Nat) (h : margin_call n i = 2) : n = i + 2 := by
  unfold margin_call at h
  by_cases h' : n - i < 256 <;> simp [h'] at h <;> omega

theorem margin_call_pos (n i : Nat) (h : i < n) : 1 ≤ margin_call n i := by
  unfold margin_call
  by_cases h' : n - i < 256 <;> simp [h'] <;> omega

theorem rleLoop_i_le (raw : List Nat) :
    ∀ i b floor out, i < raw.length →
      (rleLoop raw raw.length i b floor out).2 ≤ raw.length := by
  intro i b floor out
  induction i, b, floor, out using rleLoop.induct raw raw.length with
  | case1 i b floor out h =>
    intro hi
    rw [rleLoop]; simp [h]
    omega
  | case2 i b floor out h =>
    intro hi
    rw [rleLoop]; simp [h]
    omega
  | case3 i b floor out n1 h hd hm =>
    intro hi
    have := margin_call_eq_one raw.length i hm
    rw [rleLoop]; simp [h, hd, hm]
    omega
  | case4 i b floor out n1 h hd hm1 hm2 =>
    intro hi
    have := margin_call_eq_two raw.length i hm2
    rw [rleLoop]; simp [h, hd, hm1, hm2]
    omega
  | case5 i b floor out n1 h hd hm1 hm2 =>
    intro hi
    rw [rleLoop]; simp [h, hd, hm1, hm2]
    omega
  | case6 i b floor out n1 h hd hcond hback hb2 =>
    intro hi
    have hd' : i + 3 ≤ raw.length := margin_call_le raw.length i (by omega)
    have hb2' : n1 < 2 := by simpa [BoundedBuffer.push, h] using hb2
    rw [rleLoop]; simp only [h]
    split_ifs <;> simp_all [BoundedBuffer.push] <;> omega
  | case7 i b floor out n1 h hd hcond hback hb2 hge =>
    intro hi
    have hd' : i + 3 ≤ raw.length := margin_call_le raw.length i (by omega)
    have hb2' : ¬ n1 < 2 := by simpa [BoundedBuffer.push, h] using hb2
    have hrc := repCount_le_n raw b (i + 3) 0 (by omega)
    rw [rleLoop]; simp only [h]
    split_ifs <;> simp_all [BoundedBuffer.push] <;> omega
  | case8 i b floor out n1 h hd hcond hback hb2 hge ih =>
    intro hi
    have hd' : i + 3 ≤ raw.length := margin_call_le raw.length i (by omega)
    have hb2' : ¬ n1 < 2 := by simpa [BoundedBuffer.push, h] using hb2
    have hrc := repCount_le_n raw b (i + 3) 0 (by omega)
    have hrec := ih (by omega)
    rw [rleLoop]; simp only [h]
    split_ifs <;> simp_all [BoundedBuffer.push] <;> omega
  | case9 i b floor out n1 h hd hcond hback hfwd hb0 =>
    intro hi
    have hd' : i + 3 ≤ raw.length := margin_call_le raw.length i (by omega)
    have hb0' : n1 = 0 := by simpa [BoundedBuffer.push, h] using hb0
    rw [rleLoop]; simp only [h]
    split_ifs <;> simp_all [BoundedBuffer.push] <;> omega
  | case10 i b floor out n1 h hd hcond hback hfwd hb0 hb3 =>
    intro hi
    have hd' : i + 3 ≤ raw.length := margin_call_le raw.length i (by omega)
    have hb0' : ¬ n1 = 0 := by simpa [BoundedBuffer.push, h] using hb0
    have hb3' : n1 - 1 < 2 := by simpa [BoundedBuffer.push, h] using hb3
    rw [rleLoop]; simp only [h]
    split_ifs <;> simp_all [BoundedBuffer.push] <;> omega
  | case11 i b floor out n1 h hd hcond hback hfwd hb0 hb3 hge =>
    intro hi
    have hb0' : ¬ n1 = 0 := by simpa [BoundedBuffer.push, h] using hb0
    have hb3' : ¬ n1 - 1 < 2 := by simpa [BoundedBuffer.push, h] using hb3
    have hrc := repCount_le_n raw b (i + 4) 0 (by omega)
    rw [rleLoop]; simp only [h]
    split_ifs <;> simp_all [BoundedBuffer.push] <;> omega
  | case12 i b floor out n1 h hd hcond hback hfwd hb0 hb3 hge ih =>
    intro hi
    have hb0' : ¬ n1 = 0 := by simpa [BoundedBuffer.push, h] using hb0
    have hb3' : ¬ n1 - 1 < 2 := by simpa [BoundedBuffer.push, h] using hb3
    have hrc := repCount_le_n raw b (i + 4) 0 (by omega)
    have hrec := ih (by omega)
    rw [rleLoop]; simp only [h]
    split_ifs <;> simp_all [BoundedBuffer.push] <;> omega
  | case13 i b floor out n1 h hd hcond hback hfwd ih =>
    intro hi
    have hd' : i + 3 ≤ raw.length := margin_call_le raw.length i (by omega)
    have hrec := ih (by omega)
    rw [rleLoop]; simp only [h]
    split_ifs <;> simp_all [BoundedBuffer.push] <;> omega
  | case14 i b floor out n1 h hd hcond ih =>
    intro hi
    have hd' : i + 3 ≤ raw.length := margin_call_le raw.length i (by omega)
    have hrec := ih (by omega)
    rw [rleLoop]; simp only [h]
    split_ifs <;> simp_all [BoundedBuffer.push] <;> omega

theorem rleLoop_buffer_le (raw : List Nat) (n : Nat) :
    ∀ i b floor out, out.buffer.length ≤ (rleLoop raw n i b floor out).1.buffer.length := by
  intro i b floor out
  induction i, b, floor, out using rleLoop.induct raw n with
  | case1 i b floor out h =>
    rw [rleLoop]; simp [h]
  | case2 i b floor out h =>
    rw [rleLoop]; simp [h, BoundedBuffer.push]
  | case3 i b floor out n1 h hd hm =>
    rw [rleLoop]; simp [h, hd, hm, BoundedBuffer.push]
  | case4 i b floor out n1 h hd hm1 hm2 =>
    rw [rleLoop]; simp [h, hd, hm1, hm2, BoundedBuffer.push]
  | case5 i b floor out n1 h hd hm1 hm2 =>
    rw [rleLoop]; simp [h, hd, hm1, hm2, BoundedBuffer.push]
  | case6 i b floor out n1 h hd hcond hback hb2 =>
    have hb2' : n1 < 2 := by simpa [BoundedBuffer.push, h] using hb2
    rw [rleLoop]; simp only [h]
    split_ifs <;> simp_all [BoundedBuffer.push] <;> omega
  | case7 i b floor out n1 h hd hcond hback hb2 hge =>
    have hb2' : ¬ n1 < 2 := by simpa [BoundedBuffer.push, h] using hb2
    rw [rleLoop]; simp only [h]
    split_ifs <;> simp_all [BoundedBuffer.push] <;> omega
  | case8 i b floor out n1 h hd hcond hback hb2 hge ih =>
    have hb2' : ¬ n1 < 2 := by simpa [BoundedBuffer.push, h] using hb2
    rw [rleLoop]; simp only [h]
    split_ifs <;> simp_all [BoundedBuffer.push] <;> omega
  | case9 i b floor out n1 h hd hcond hback hfwd hb0 =>
    have hb0' : n1 = 0 := by simpa [BoundedBuffer.push, h] using hb0
    rw [rleLoop]; simp only [h]
    split_ifs <;> simp_all [BoundedBuffer.push] <;> omega
  | case10 i b floor out n1 h hd hcond hback hfwd hb0 hb3 =>
    have hb0' : ¬ n1 = 0 := by simpa [BoundedBuffer.push, h] using hb0
    have hb3' : n1 - 1 < 2 := by simpa [BoundedBuffer.push, h] using hb3
    rw [rleLoop]; simp only [h]
    split_ifs <;> simp_all [BoundedBuffer.push] <;> omega
  | case11 i b floor out n1 h hd hcond hback hfwd hb0 hb3 hge =>
    have hb0' : ¬ n1 = 0 := by simpa [BoundedBuffer.push, h] using hb0
    have hb3' : ¬ n1 - 1 < 2 := by simpa [BoundedBuffer.push, h] using hb3
    rw [rleLoop]; simp only [h]
    split_ifs <;> simp_all [BoundedBuffer.push] <;> omega
  | case12 i b floor out n1 h hd hcond hback hfwd hb0 hb3 hge ih =>
    have hb0' : ¬ n1 = 0 := by simpa [BoundedBuffer.push, h] using hb0
    have hb3' : ¬ n1 - 1 < 2 := by simpa [BoundedBuffer.push, h] using hb3
    rw [rleLoop]; simp only [h]
    split_ifs <;> simp_all [BoundedBuffer.push] <;> omega
  | case13 i b floor out n1 h hd hcond hback hfwd ih =>
    rw [rleLoop]; simp only [h]
    split_ifs <;> simp_all [BoundedBuffer.push] <;> omega
  | case14 i b floor out n1 h hd hcond ih =>
    rw [rleLoop]; simp only [h]
    split_ifs <;> simp_all [BoundedBuffer.push] <;> omega

theorem rleLoop_first_buffer (raw : List Nat) (n : Nat) (i b floor : Nat)
    (out : BoundedBuffer) (hb : 1 ≤ out.bound) :
    out.buffer.length + 1 ≤ (rleLoop raw n i b floor out).1.buffer.length := by
  rw [rleLoop]
  rcases hbnd : out.bound with _ | m
  · omega
  rcases m with _ | k
  · simp [BoundedBuffer.push]
  · split_ifs <;>
      first
        | (simp [BoundedBuffer.push] <;> omega)
        | (refine le_trans ?_ (rleLoop_buffer_le raw n _ _ _ _)
           simp [BoundedBuffer.push] <;> omega)

theorem rleLoop_first_i (raw : List Nat) (n : Nat) (i b floor : Nat)
    (out : BoundedBuffer) (hb : 1 ≤ out.bound) (hi : i < n) :
    i + 1 ≤ (rleLoop raw n i b floor out).2 := by
  rw [rleLoop]
  rcases hbnd : out.bound with _ | m
  · omega
  rcases m with _ | k
  · simp
  · have hrc3 := repCount_le_i raw b (i + 3) 0
    have hrc4 := repCount_le_i raw b (i + 4) 0
    have hm1 := margin_call_pos n i hi
    split_ifs <;>
      first
        | (simp <;> omega)
        | (refine le_trans ?_ (rleLoop_i_mono raw n _ _ _ _) <;> omega)

def crc32shift (c : Nat) : Nat :=
  if 2147483648 <= c then Nat.xor ((c * 2) % 4294967296) 79764919 else (c * 2) % 4294967296

def crc32byte (c b : Nat) : Nat := crc32shift^[8] (Nat.xor c ((b % 256) * 16777216))

def crc32 (data : List Nat) : Nat := Nat.xor (data.foldl crc32byte 4294967295) 4294967295

structure Rle where
  output : List Nat
  chk : Nat
  raw : Option (List Nat)
  consumed : Nat

def rleOneRun (input : List Nat) (level : Nat) : BoundedBuffer × Nat :=
  rleLoop input input.length 0 (input.getD 0 0) 0 ⟨100000 * level - 1, [], false⟩

def rle_one (input : List Nat) (level : Nat) : Rle :=
  if input.length = 0 then ⟨[], 0, none, 0⟩
  else
    ⟨(rleOneRun input level).1.buffer,
      crc32 (input.take (rleOneRun input level).2),
      if (rleOneRun input level).2 < input.length then
        some (input.drop (rleOneRun input level).2)
      else none,
      (rleOneRun input level).2⟩

theorem rle_one_consumed_le (input : List Nat) (level : Nat) :
    (rle_one input level).consumed ≤ input.length := by
  unfold rle_one
  by_cases h : input.length = 0
  · simp [h]
  · simp only [h, if_neg, if_false]
    exact rleLoop_i_le input 0 _ 0 _ (by omega)

theorem rle_one_consumed_pos (input : List Nat) (level : Nat)
    (h : input ≠ []) (hl : 1 ≤ level) : 1 ≤ (rle_one input level).consumed := by
  unfold rle_one
  have hlen : input.length ≠ 0 := by simpa using h
  simp only [hlen, if_false]
  have := rleLoop_first_i input input.length 0 (input.getD 0 0) 0
    ⟨100000 * level - 1, [], false⟩ (by simp; omega) (by omega)
  simpa [rleOneRun] using this

theorem rle_one_raw_some (input : List Nat) (level : Nat) (rem : List Nat)
    (h : (rle_one input level).raw = some rem) :
    rem = input.drop (rle_one input level).consumed ∧
      (rle_one input level).consumed < input.length := by
  unfold rle_one at h ⊢
  by_cases h0 : input.length = 0
  · simp [h0] at h
  · simp only [h0, if_false] at h ⊢
    by_cases hlt : (rleOneRun input level).2 < input.length
    · simp only [hlt, if_pos, Option.some.injEq] at h
      simp [hlt, ← h]
    · simp [hlt] at h

theorem rle_one_output_bound (input : List Nat) (level : Nat) :
    (rleOneRun input level).1.violated = false ∧
      (rle_one input level).output.length ≤ 100000 * level - 1 := by
  have hok := rleLoop_ok input input.length 0 (input.getD 0 0) 0
    ⟨100000 * level - 1, [], false⟩ rfl
  constructor
  · exact hok.1
  · unfold rle_one
    by_cases h : input.length = 0
    · simp [h]
    · simp only [h, if_false]
      have := hok.2
      simp only [List.length_nil, Nat.zero_add] at this
      show (rleOneRun input level).1.buffer.length ≤ _
      unfold rleOneRun
      omega

theorem rle_one_output_ne (input : List Nat) (level : Nat)
    (h : input ≠ []) (hl : 1 ≤ level) : (rle_one input level).output ≠ [] := by
  have hlen : input.length ≠ 0 := by simpa using h
  have hfirst := rleLoop_first_buffer input input.length 0 (input.getD 0 0) 0
    ⟨100000 * level - 1, [], false⟩ (by simp; omega)
  unfold rle_one
  simp only [hlen, if_false]
  show (rleOneRun input level).1.buffer ≠ []
  unfold rleOneRun
  simp only [List.length_nil] at hfirst
  intro hcontra
  rw [hcontra] at hfirst
  simp at hfirst

def encodeConsumed (input : List Nat) (level : Nat) : Nat :=
  if _h19 : 1 ≤ level ∧ level ≤ 9 then
    match _hr : (rle_one input level).raw with
    | none => (rle_one input level).consumed
    | some rem => (rle_one input level).consumed + encodeConsumed rem level
  else 0
termination_by input.length
decreasing_by
  have h1 := rle_one_raw_some input level rem _hr
  have h2 := rle_one_consumed_pos input level
    (by intro hc; subst hc; simp [rle_one] at _hr) (by omega)
  rw [h1.1]
  simp only [List.length_drop]
  omega

theorem encodeConsumed_eq_length (level : Nat) (h1 : 1 ≤ level) (h9 : level ≤ 9) :
    ∀ input : List Nat, encodeConsumed input level = input.length := by
  have main : ∀ N : Nat, ∀ input : List Nat, input.length ≤ N →
      encodeConsumed input level = input.length := by
    intro N
    induction N with
    | zero =>
      intro input hlen
      have : input = [] := by
        cases input with
        | nil => rfl
        | cons a as => simp at hlen
      subst this
      rw [encodeConsumed]
      simp [h1, h9, rle_one]
    | succ N ih =>
      intro input hlen
      rw [encodeConsumed]
      simp only [h1, h9, and_self, dif_pos]
      rcases hr : (rle_one input level).raw with _ | rem
      · have hle := rle_one_consumed_le input level
        by_cases h0 : input.length = 0
        · simp [rle_one, h0]
        · have hge : ¬ (rleOneRun input level).2 < input.length := by
            intro hlt
            rw [rle_one, if_neg h0] at hr
            simp only [hlt, if_pos] at hr
            exact Option.noConfusion hr
          rw [rle_one, if_neg h0] at hle ⊢
          simp only at hle ⊢
          omega
      · have hsome := rle_one_raw_some input level rem hr
        have hpos := rle_one_consumed_pos input level
          (by intro hc; subst hc; simp [rle_one] at hr) h1
        have hle := rle_one_consumed_le input level
        have hrem : rem.length = input.length - (rle_one input level).consumed := by
          rw [hsome.1]; simp
        have := ih rem (by omega)
        show (rle_one input level).consumed + encodeConsumed rem level = input.length
        omega
  intro input
  exact main input.length input le_rfl

end Rle

namespace Bwt

/-!
## Burrows-Wheeler transform via SA-IS (`src/bwt.rs`)

The suffix array `sa` (`Array`, a `&mut [i32]`) is a `List Int`; the
bucket tables and the presence map are `List`s indexed by symbol value;
`Vec` growth and in-place writes become `List.set`.  Bitwise NOT on a
signed index (`!x`) is `-x - 1`.
-/

/-- Bitwise NOT of a signed index (`!x` on `i32` in Rust). -/
def inot (x : Int) : Int := -x - 1

/-- `Idx::MAX`, the "empty slot" sentinel. -/
def idxMAX : Int := 2147483647

/-- `usize::MAX`. -/
def usizeMAX : Nat := 18446744073709551615

/-- `u32` subtraction by one with wrap-around, as in `tail_push`'s
`(*bptr).wrapping_sub(1)`. -/
def wsub1 (x : Nat) : Nat := (x + 4294967295) % 4294967296

/-- Bucket state (`Buckets` of `bwt.rs`): sorted list of present symbols,
per-symbol sizes and pointer cursors. -/
structure Buckets where
  sigma : List Nat
  sizes : List Nat
  bptrs : List Nat
  deriving Repr, DecidableEq

/-- `Buckets::build` (also `rebuild`): `layout` over the data followed by
the `sigma` sort. -/
def bucketsBuild (data : List Nat) (max_sigma_size : Nat) : Buckets :=
  let b := data.foldl
    (fun (bk : Buckets) c =>
      let s := bk.sizes.getD c 0 + 1
      { sigma := if s = 1 then bk.sigma ++ [c] else bk.sigma
        sizes := bk.sizes.set c s
        bptrs := bk.bptrs })
    ⟨[], List.replicate max_sigma_size 0, List.replicate max_sigma_size 0⟩
  { b with sigma := b.sigma.insertionSort (· ≤ ·) }

/-- `Buckets::set_ptrs_to_bucket_heads`. -/
def setPtrsHeads (bk : Buckets) : Buckets :=
  let r := bk.sigma.foldl
    (fun (p : Nat × List Nat) w => (p.1 + bk.sizes.getD w 0, p.2.set w p.1))
    (0, bk.bptrs)
  { bk with bptrs := r.2 }

/-- `Buckets::set_ptrs_to_bucket_tails`. -/
def setPtrsTails (bk : Buckets) : Buckets :=
  let r := bk.sigma.foldl
    (fun (p : Nat × List Nat) w =>
      (p.1 + bk.sizes.getD w 0, p.2.set w (p.1 + bk.sizes.getD w 0 - 1)))
    (0, bk.bptrs)
  { bk with bptrs := r.2 }

/-- `tail_push`. -/
def tail_push (sa : List Int) (bk : Buckets) (w : Nat) (i : Int) : List Int × Buckets :=
  let bptr := bk.bptrs.getD w 0
  (sa.set bptr i, { bk with bptrs := bk.bptrs.set w (wsub1 bptr) })

/-- `head_push`. -/
def head_push (sa : List Int) (bk : Buckets) (w : Nat) (i : Int) : List Int × Buckets :=
  let bptr := bk.bptrs.getD w 0
  (sa.set bptr i, { bk with bptrs := bk.bptrs.set w (bptr + 1) })

/-- The S/L classification type (`enum Type`). -/
inductive SLType where
  | S : SLType
  | L : SLType

/-- `induced_sort_fwd`: induce L-type positions left-to-right.  The source
takes `n = sa.len()`, which equals `data.len()` at every call site. -/
def induced_sort_fwd (data : List Nat) (sa : List Int) (bk : Buckets) (wipe : Bool) :
    List Int × Buckets :=
  let n := data.length
  let bk := setPtrsHeads bk
  /- simulate the sentinel by pushing data[n - 1] -/
  let push_idx : Int :=
    if data.getD (n - 2) 0 < data.getD (n - 1) 0 then inot ((n : Int) - 1) else (n : Int) - 1
  let sabk := head_push sa bk (data.getD (n - 1) 0) push_idx
  (List.range n).foldl
    (fun (sabk : List Int × Buckets) p =>
      let sa := sabk.1
      let bk := sabk.2
      let i := sa.getD p 0
      if 0 < i then
        let push_idx : Int :=
          if i - 2 < 0 ∨ data.getD (i - 2).toNat 0 < data.getD (i - 1).toNat 0 then
            inot (i - 1)
          else i - 1
        let sabk' := head_push sa bk (data.getD (i - 1).toNat 0) push_idx
        (sabk'.1.set p (if wipe then 0 else inot (sabk'.1.getD p 0)), sabk'.2)
      else if i < 0 then
        (sa.set p (inot i), bk)
      else sabk)
    sabk

/-- `induced_sort_bck`: induce S-type positions right-to-left. -/
def induced_sort_bck (data : List Nat) (sa : List Int) (bk : Buckets)
    (wipe : Bool) (unflip : Bool) : List Int × Buckets :=
  let n := data.length
  let bk := setPtrsTails bk
  (List.range n).reverse.foldl
    (fun (sabk : List Int × Buckets) p =>
      let sa := sabk.1
      let bk := sabk.2
      let i := sa.getD p 0
      if 0 < i then
        let push_idx : Int :=
          if i - 2 < 0 ∨ data.getD (i - 2).toNat 0 > data.getD (i - 1).toNat 0 then
            inot (i - 1)
          else i - 1
        let sabk' := tail_push sa bk (data.getD (i - 1).toNat 0) push_idx
        (if wipe then sabk'.1.set p 0 else sabk'.1, sabk'.2)
      else if unflip ∧ i < 0 then
        (sa.set p (inot i), bk)
      else sabk)
    (sa, bk)

/-- The right-to-left walk of `encode_reduced` that writes each LMS
substring length into its lookup slot, with early exit once every LMS
position has been seen. -/
def encLenWalk (lms_count : Nat) : List Nat → Int → SLType → Nat → Nat → Int →
    List Int → List Int
  | [], _, _, _, _, _, sa => sa
  | w :: rest, i_sub, ty, w_sub, unseen, last_lms, sa =>
    let i_sub := i_sub - 1
    match ty with
    | .L =>
      if w < w_sub then encLenWalk lms_count rest i_sub .S w unseen last_lms sa
      else encLenWalk lms_count rest i_sub .L w unseen last_lms sa
    | .S =>
      if w > w_sub then
        let sa := sa.set (lms_count + i_sub.toNat / 2) ((1 + last_lms) - i_sub)
        if unseen - 1 = 0 then sa
        else encLenWalk lms_count rest i_sub .L w (unseen - 1) i_sub sa
      else encLenWalk lms_count rest i_sub .S w unseen last_lms sa

/-- `Data::substrings_equal`. -/
def substrings_equal (data : List Nat) (a b len : Nat) : Bool :=
  decide ((data.drop a).take len = (data.drop b).take len)

/-- `encode_reduced`: compact the sorted LMS indices, compute substring
lengths, assign lexical names in place and compact the reduced string to
the tail of the array.  Returns the updated array together with
`(lms_count, new_sigma_size)`. -/
def encode_reduced (data : List Nat) (sa : List Int) : List Int × Nat × Nat :=
  let n := data.length
  /- compress sorted LMS-substrings into sa[0..lms_count] -/
  let salc := (List.range n).foldl
    (fun (salc : List Int × Nat) p =>
      let sa := salc.1
      let lc := salc.2
      let salc' :=
        if sa.getD p 0 < -1 then (sa.set lc (inot (sa.getD p 0)), lc + 1) else (sa, lc)
      (if p ≥ salc'.2 then salc'.1.set p idxMAX else salc'.1, salc'.2))
    (sa, 0)
  let sa := salc.1
  let lms_count := salc.2
  /- determine LMS-substring lengths at lookup indices -/
  let sa :=
    match data.reverse with
    | [] => sa
    | w_sub :: rest => encLenWalk lms_count rest (n : Int) .L w_sub lms_count ((n : Int) - 1) sa
  /- in-place map LMS-substrings to lexical names -/
  let st := (List.range lms_count).foldl
    (fun (st : Nat × Nat × Nat × List Int) i =>
      let rword := st.1
      let prv_lms := st.2.1
      let prv_lms_len := st.2.2.1
      let sa := st.2.2.2
      let cur_lms := (sa.getD i 0).toNat
      let lms_lookup := lms_count + cur_lms / 2
      let cur_lms_len := (sa.getD lms_lookup 0).toNat
      let eq :=
        if prv_lms ≠ 0 then
          if prv_lms_len = cur_lms_len ∧ prv_lms_len + cur_lms_len < n then
            substrings_equal data prv_lms cur_lms prv_lms_len
          else false
        else false
      if eq then (rword, prv_lms, prv_lms_len, sa.set lms_lookup (rword : Int))
      else
        let rword' := if prv_lms ≠ 0 then rword + 1 else rword
        (rword', cur_lms, cur_lms_len, sa.set lms_lookup (rword' : Int)))
    (0, 0, 0, sa)
  let rword := st.1
  let sa := st.2.2.2
  /- compress lexical names to form the reduced string at the end -/
  let swp := (List.range' lms_count (n - lms_count)).reverse.foldl
    (fun (swp : List Int × Nat) p =>
      let sa := swp.1
      let wp := swp.2
      if sa.getD p 0 ≠ idxMAX then (sa.set wp (sa.getD p 0), wp - 1) else (sa, wp))
    (sa, n - 1)
  (swp.1, lms_count, rword + 1)

/-- The right-to-left walk of `decode_reduced` that overwrites the reduced
string region with the LMS indices. -/
def decLmsWalk : List Nat → Int → SLType → Nat → Nat → List Int → List Int
  | [], _, _, _, _, sa => sa
  | w :: rest, i_sub, ty, w_sub, write_ptr, sa =>
    let i_sub := i_sub - 1
    match ty with
    | .L =>
      if w < w_sub then decLmsWalk rest i_sub .S w write_ptr sa
      else decLmsWalk rest i_sub .L w write_ptr sa
    | .S =>
      if w > w_sub then
        decLmsWalk rest i_sub .L w (write_ptr - 1) (sa.set write_ptr i_sub)
      else decLmsWalk rest i_sub .S w write_ptr sa

/-- `decode_reduced`: map the reduced suffix array back to LMS indices and
zero-fill the tail. -/
def decode_reduced (data : List Nat) (sa : List Int) (lms_count : Nat) : List Int :=
  let n := data.length
  let sa :=
    match data.reverse with
    | [] => sa
    | w_sub :: rest => decLmsWalk rest (n : Int) .L w_sub (n - 1) sa
  let sa := (List.range lms_count).foldl
    (fun (sa : List Int) p => sa.set p (sa.getD (n - lms_count + (sa.getD p 0).toNat) 0))
    sa
  (List.range' lms_count (n - lms_count)).foldl
    (fun (sa : List Int) p => sa.set p 0)
    sa

/-- The right-to-left LMS insertion walk at the start of `sais`. -/
def saisLmsWalk : List Nat → Int → SLType → Nat →
    (List Int × Buckets × Nat) → (List Int × Buckets × Nat)
  | [], _, _, _, st => st
  | w :: rest, i_sub, ty, w_sub, st =>
    let i_sub := i_sub - 1
    match ty with
    | .L =>
      if w < w_sub then saisLmsWalk rest i_sub .S w st
      else saisLmsWalk rest i_sub .L w st
    | .S =>
      if w > w_sub then
        let pr := tail_push st.1 st.2.1 w_sub i_sub
        saisLmsWalk rest i_sub .L w (pr.1, pr.2, st.2.2 + 1)
      else saisLmsWalk rest i_sub .S w st

/-- Step 1 of `sais`: build the buckets and insert the LMS-substrings into
their S-buckets by the right-to-left walk. -/
def saisStep1 (sigma_size : Nat) (data : List Nat) : List Int × Buckets × Nat :=
  let n := data.length
  let bk := bucketsBuild data sigma_size
  let bk := setPtrsTails bk
  match data.reverse with
  | [] => (List.replicate n 0, bk, 0)
  | w_sub :: rest => saisLmsWalk rest (n : Int) .L w_sub (List.replicate n 0, bk, 0)

/-- Space the sorted LMS-suffixes out into their buckets (the loop before
the final induction passes). -/
def spaceLms (data : List Nat) (sa : List Int) (bk : Buckets) (lms_count : Nat) :
    List Int × Buckets :=
  (List.range lms_count).reverse.foldl
    (fun (sabk : List Int × Buckets) p =>
      let lms_idx := sabk.1.getD p 0
      let sa := sabk.1.set p 0
      tail_push sa sabk.2 (data.getD lms_idx.toNat 0) lms_idx)
    (sa, bk)

/-- The reduced string: the `lms_count` lexical names sitting at the tail
of the array. -/
def reducedWord (data : List Nat) (sa : List Int) (lms_count : Nat) : List Nat :=
  (List.range lms_count).map (fun p => (sa.getD (data.length - lms_count + p) 0).toNat)

/-- `sais` Step 2: solve the suffix array of the reduced problem, either by
the name/LMS-suffix bijection or by recursing (`saisRec`, supplied by the
caller to tie the fuel-bounded recursive knot). -/
def saisReduce (saisRec : Nat → List Nat → List Int) (data : List Nat) (sa : List Int)
    (lms_count new_sigma_size : Nat) : List Int :=
  let n := data.length
  if new_sigma_size ≠ lms_count then
    /- recurse on the reduced problem; `Array::split` zero-fills the region
       before the reduced string and hands the recursion the first
       `lms_count` slots -/
    let rsa := saisRec new_sigma_size (reducedWord data sa lms_count)
    rsa ++ List.replicate (n - 2 * lms_count) 0 ++ sa.drop (n - lms_count)
  else
    /- bijection between reduced words and LMS-suffixes -/
    (List.range lms_count).foldl
      (fun (sa : List Int) p => sa.set (sa.getD (n - lms_count + p) 0).toNat (p : Int))
      sa

/-- One unfolding step of `sais` (the `fuel + 1` branch), with the
recursive call abstracted as `rec`. -/
def saisBody (rec : Nat → List Nat → List Int) (sigma_size : Nat) (data : List Nat) :
    List Int :=
  let st := saisStep1 sigma_size data
  let sa := st.1
  let bk := st.2.1
  let lms_count := st.2.2
  if lms_count > 1 then
    let sabk := induced_sort_fwd data sa bk true
    let sabk := induced_sort_bck data sabk.1 sabk.2 true false
    let enc := encode_reduced data sabk.1
    let sa := saisReduce rec data enc.1 enc.2.1 enc.2.2
    let sa := decode_reduced data sa enc.2.1
    let bk := bucketsBuild data sigma_size
    let bk := setPtrsTails bk
    let sabk := spaceLms data sa bk enc.2.1
    let sabk := induced_sort_fwd data sabk.1 sabk.2 false
    let sabk := induced_sort_bck data sabk.1 sabk.2 false true
    sabk.1
  else
    let sabk := induced_sort_fwd data sa bk false
    let sabk := induced_sort_bck data sabk.1 sabk.2 false true
    sabk.1

/-- `sais`: the recursive suffix-array construction, as fuel-bounded
recursion; fuel `lms_count` suffices since the reduced problem is at most
half the size. -/
def sais : Nat → Nat → List Nat → List Int
  | 0, _, _ => []
  | fuel + 1, sigma_size, data => saisBody (sais fuel) sigma_size data

/-- The right-to-left LMS insertion walk at the start of `bwt`, which also
records byte presence in `has_byte` as it goes. -/
def bwtLmsWalk : List Nat → Int → SLType → Nat →
    (List Bool × List Int × Buckets × Nat) → (List Bool × List Int × Buckets × Nat)
  | [], _, _, _, st => st
  | w :: rest, i_sub, ty, w_sub, st =>
    let hb := st.1.set w true
    let i_sub := i_sub - 1
    match ty with
    | .L =>
      if w < w_sub then bwtLmsWalk rest i_sub .S w (hb, st.2)
      else bwtLmsWalk rest i_sub .L w (hb, st.2)
    | .S =>
      if w > w_sub then
        let pr := tail_push st.2.1 st.2.2.1 w_sub i_sub
        bwtLmsWalk rest i_sub .L w (hb, pr.1, pr.2, st.2.2.2 + 1)
      else bwtLmsWalk rest i_sub .S w (hb, st.2)

/-- The final forward induction of `bwt` (lines 656-689): induce L-type
suffixes while overwriting each finalised slot with the bit-complemented
BWT character (`!data[i-1]`, or `!256` for suffixes of the second copy). -/
def bwtFinalFwd (data : List Nat) (n : Nat) (sa : List Int) (bk : Buckets) :
    List Int × Buckets :=
  let buf_n := data.length
  let bk := setPtrsHeads bk
  let push_idx : Int :=
    if data.getD (buf_n - 2) 0 < data.getD (buf_n - 1) 0 then inot ((buf_n : Int) - 1)
    else (buf_n : Int) - 1
  let sabk := head_push sa bk (data.getD (buf_n - 1) 0) push_idx
  (List.range buf_n).foldl
    (fun (sabk : List Int × Buckets) p =>
      let sa := sabk.1
      let bk := sabk.2
      let i := sa.getD p 0
      if 0 < i then
        let sa := sa.set p
          (if i < (n : Int) then inot (data.getD (i - 1).toNat 0) else inot 256)
        let push_idx : Int :=
          if i - 2 < 0 ∨ data.getD (i - 2).toNat 0 < data.getD (i - 1).toNat 0 then
            inot (i - 1)
          else i - 1
        head_push sa bk (data.getD (i - 1).toNat 0) push_idx
      else if i < 0 then
        (sa.set p (inot i), bk)
      else sabk)
    sabk

/-- The final backward induction of `bwt` (lines 694-730): induce S-type
suffixes while overwriting finalised slots with the BWT character (or the
sentinel `256`) and remembering the slot holding suffix `0`
(`start_suffix`). -/
def bwtFinalBck (data : List Nat) (n : Nat) (sa : List Int) (bk : Buckets) :
    List Int × Buckets × Nat :=
  let buf_n := data.length
  let bk := setPtrsTails bk
  (List.range buf_n).reverse.foldl
    (fun (st : List Int × Buckets × Nat) p =>
      let sa := st.1
      let bk := st.2.1
      let start_suffix := st.2.2
      let i := sa.getD p 0
      if 0 < i then
        let sa := sa.set p
          (if i < (n : Int) then (data.getD (i - 1).toNat 0 : Int) else 256)
        let push_idx : Int :=
          if i - 2 < 0 then 0
          else if data.getD (i - 2).toNat 0 > data.getD (i - 1).toNat 0 then
            (if i - 1 < (n : Int) then inot (data.getD (i - 2).toNat 0) else inot 256)
          else i - 1
        let pr := tail_push sa bk (data.getD (i - 1).toNat 0) push_idx
        (pr.1, pr.2, start_suffix)
      else if i < 0 then
        (sa.set p (inot i), bk, start_suffix)
      else
        (sa, bk, p))
    (sa, bk, usizeMAX)

/-- The BWT read-out loop of `bwt` (lines 734-748): write the BWT column
into the second half of the doubled data buffer, recording where the
sentinel rotation lands (`start_ptr`). -/
def bwtReadout (data : List Nat) (n : Nat) (sa : List Int) (start_suffix : Nat) :
    List Nat × Nat :=
  let buf_n := data.length
  let st := (List.range buf_n).foldl
    (fun (st : List Nat × Nat × Nat) p =>
      let dm := st.1
      let start_ptr := st.2.1
      let j := st.2.2
      if p = start_suffix then
        (dm.set j (dm.getD (n - 1) 0), j - n, j + 1)
      else
        let w := sa.getD p 0
        if w < 256 then (dm.set j (w % 256).toNat, start_ptr, j + 1)
        else (dm, start_ptr, j))
    (data, usizeMAX, n)
  (st.1, st.2.1)

/-- Result of the Burrows-Wheeler transform (`struct Bwt`). -/
structure BwtRes where
  bwt : List Nat
  ptr : Nat
  has_byte : List Bool
  deriving Repr, DecidableEq

/-- Step 1 of `bwt`: build the byte buckets for the doubled data and insert
the LMS-substrings, recording byte presence along the walk. -/
def bwtStep1 (data : List Nat) : List Bool × List Int × Buckets × Nat :=
  let buf_n := data.length
  let bk := bucketsBuild data 256
  let bk := setPtrsTails bk
  match data.reverse with
  | [] => (List.replicate 256 false, List.replicate buf_n 0, bk, 0)
  | w_sub :: rest =>
    bwtLmsWalk rest (buf_n : Int) .L w_sub
      ((List.replicate 256 false).set w_sub true, List.replicate buf_n 0, bk, 0)

/-- The `lms_count > 1` block of `bwt`: the two wiping induction passes,
the reduced-problem solve (the recursion gets its own bucket table,
`rbuckets`), `decode_reduced`, and the spacing-out of the sorted
LMS-suffixes (the top level re-uses its own buckets without a rebuild). -/
def bwtMiddle (data : List Nat) (sa : List Int) (bk : Buckets) : List Int × Buckets :=
  let sabk := induced_sort_fwd data sa bk true
  let sabk := induced_sort_bck data sabk.1 sabk.2 true false
  let enc := encode_reduced data sabk.1
  let sa := saisReduce (sais enc.2.1) data enc.1 enc.2.1 enc.2.2
  let sa := decode_reduced data sa enc.2.1
  let bk := setPtrsTails sabk.2
  spaceLms data sa bk enc.2.1

/-- The main body of `bwt` for `2 ≤ n` below the size guard: double the
input, run SA-IS on the doubled string and read the BWT column and primary
index out of the final induction passes. -/
def bwtMain (input : List Nat) : BwtRes :=
  let n := input.length
  let data := input ++ input
  let st := bwtStep1 data
  let has_byte := st.1
  let sabk : List Int × Buckets :=
    if st.2.2.2 > 1 then bwtMiddle data st.2.1 st.2.2.1
    else (st.2.1, st.2.2.1)
  let sabk := bwtFinalFwd data n sabk.1 sabk.2
  let fin := bwtFinalBck data n sabk.1 sabk.2
  let ro := bwtReadout data n fin.1 fin.2.2
  { bwt := ro.1.drop n
    ptr := ro.2
    has_byte := has_byte }

/-- `bwt`: the bzip2 cyclic Burrows-Wheeler transform of `bwt.rs`.  Inputs
of length `0` and `1` are special-cased; inputs of length at least
`(Idx::MAX / 4) - 1 = 536870910` are refused with an empty transform and
`ptr = usize::MAX`. -/
def bwt (input : List Nat) : BwtRes :=
  let n := input.length
  if n = 0 then
    { bwt := [], ptr := usizeMAX, has_byte := List.replicate 256 false }
  else if n = 1 then
    { bwt := input, ptr := 0
      has_byte := (List.replicate 256 false).set (input.getD 0 0) true }
  else if 536870910 ≤ n then
    { bwt := [], ptr := usizeMAX, has_byte := List.replicate 256 false }
  else bwtMain input

/-! ### Concrete evaluation of `bwt` on the SIX.MIXED test vector

The 44-byte input is pushed through the pipeline one phase at a time;
each phase's result is recorded as a literal and certified by `decide`,
and the phase equations are then chained into the full evaluation.  The
first level of the `sais` recursion (the reduced word of the 34
LMS-substrings over the 17-name alphabet) is staged the same way. -/
/-- The bytes of "SIX.MIXED.PIXIES.SIFT.SIXTY.PIXIE.DUST.BOXES". -/
def sixIn : List Nat := [83, 73, 88, 46, 77, 73, 88, 69, 68, 46, 80, 73, 88, 73, 69, 83, 46, 83, 73, 70, 84, 46, 83, 73, 88, 84, 89, 46, 80, 73, 88, 73, 69, 46, 68, 85, 83, 84, 46, 66, 79, 88, 69, 83]
/-- The doubled input `sixIn ++ sixIn`. -/
def sixData : List Nat := [83, 73, 88, 46, 77, 73, 88, 69, 68, 46, 80, 73, 88, 73, 69, 83, 46, 83, 73, 70, 84, 46, 83, 73, 88, 84, 89, 46, 80, 73, 88, 73, 69, 46, 68, 85, 83, 84, 46, 66, 79, 88, 69, 83, 83, 73, 88, 46, 77, 73, 88, 69, 68, 46, 80, 73, 88, 73, 69, 83, 46, 83, 73, 70, 84, 46, 83, 73, 88, 84, 89, 46, 80, 73, 88, 73, 69, 46, 68, 85, 83, 84, 46, 66, 79, 88, 69, 83]
/-- Result of `bwtStep1` on the doubled SIX input. -/
def sixSt1 : List Bool × List Int × Buckets × Nat :=
  ([false, false, false, false, false, false, false, false, false, false, false, false, false, false, false, false, false, false, false, false, false, false, false, false, false, false, false, false, false, false, false, false, false, false, false, false, false, false, false, false, false, false, false, false, false, false, true, false, false, false, false, false, false, false, false, false, false, false, false, false, false, false, false, false, false, false, true, false, true, true, true, false, false, true, false, false, false, true, false, true, true, false, false, true, true, true, false, false, true, true, false, false, false, false, false, false, false, false, false, false, false, false, false, false, false, false, false, false, false, false, false, false, false, false, false, false, false, false, false, false, false, false, false, false, false, false, false, false, false, false, false, false, false, false, false, false, false, false, false, false, false, false, false, false, false, false, false, false, false, false, false, false, false, false, false, false, false, false, false, false, false, false, false, false, false, false, false, false, false, false, false, false, false, false, false, false, false, false, false, false, false, false, false, false, false, false, false, false, false, false, false, false, false, false, false, false, false, false, false, false, false, false, false, false, false, false, false, false, false, false, false, false, false, false, false, false, false, false, false, false, false, false, false, false, false, false, false, false, false, false, false, false, false, false, false, false, false, false, false, false, false, false, false, false, false, false, false, false, false, false, false, false, false, false, false, false], [3, 9, 16, 21, 27, 33, 38, 47, 53, 60, 65, 71, 77, 82, 0, 0, 0, 0, 0, 0, 0, 0, 0, 0, 14, 42, 58, 86, 19, 63, 0, 0, 0, 0, 0, 0, 1, 5, 11, 23, 29, 45, 49, 55, 67, 73, 0, 0, 0, 0, 0, 0, 0, 0, 0, 0, 0, 0, 0, 0, 0, 0, 0, 0, 36, 80, 0, 0, 0, 0, 25, 69, 0, 0, 0, 0, 0, 0, 0, 0, 0, 0, 0, 0, 0, 0, 0, 0], ⟨[46, 66, 68, 69, 70, 73, 77, 79, 80, 83, 84, 85, 88, 89], [0, 0, 0, 0, 0, 0, 0, 0, 0, 0, 0, 0, 0, 0, 0, 0, 0, 0, 0, 0, 0, 0, 0, 0, 0, 0, 0, 0, 0, 0, 0, 0, 0, 0, 0, 0, 0, 0, 0, 0, 0, 0, 0, 0, 0, 0, 14, 0, 0, 0, 0, 0, 0, 0, 0, 0, 0, 0, 0, 0, 0, 0, 0, 0, 0, 0, 2, 0, 4, 8, 2, 0, 0, 16, 0, 0, 0, 2, 0, 2, 4, 0, 0, 12, 6, 2, 0, 0, 12, 2, 0, 0, 0, 0, 0, 0, 0, 0, 0, 0, 0, 0, 0, 0, 0, 0, 0, 0, 0, 0, 0, 0, 0, 0, 0, 0, 0, 0, 0, 0, 0, 0, 0, 0, 0, 0, 0, 0, 0, 0, 0, 0, 0, 0, 0, 0, 0, 0, 0, 0, 0, 0, 0, 0, 0, 0, 0, 0, 0, 0, 0, 0, 0, 0, 0, 0, 0, 0, 0, 0, 0, 0, 0, 0, 0, 0, 0, 0, 0, 0, 0, 0, 0, 0, 0, 0, 0, 0, 0, 0, 0, 0, 0, 0, 0, 0, 0, 0, 0, 0, 0, 0, 0, 0, 0, 0, 0, 0, 0, 0, 0, 0, 0, 0, 0, 0, 0, 0, 0, 0, 0, 0, 0, 0, 0, 0, 0, 0, 0, 0, 0, 0, 0, 0, 0, 0, 0, 0, 0, 0, 0, 0, 0, 0, 0, 0, 0, 0, 0, 0, 0, 0, 0, 0, 0, 0, 0, 0, 0, 0, 0, 0, 0, 0, 0, 0], [0, 0, 0, 0, 0, 0, 0, 0, 0, 0, 0, 0, 0, 0, 0, 0, 0, 0, 0, 0, 0, 0, 0, 0, 0, 0, 0, 0, 0, 0, 0, 0, 0, 0, 0, 0, 0, 0, 0, 0, 0, 0, 0, 0, 0, 0, 4294967295, 0, 0, 0, 0, 0, 0, 0, 0, 0, 0, 0, 0, 0, 0, 0, 0, 0, 0, 0, 15, 0, 19, 23, 27, 0, 0, 35, 0, 0, 0, 47, 0, 49, 53, 0, 0, 63, 69, 73, 0, 0, 85, 87, 0, 0, 0, 0, 0, 0, 0, 0, 0, 0, 0, 0, 0, 0, 0, 0, 0, 0, 0, 0, 0, 0, 0, 0, 0, 0, 0, 0, 0, 0, 0, 0, 0, 0, 0, 0, 0, 0, 0, 0, 0, 0, 0, 0, 0, 0, 0, 0, 0, 0, 0, 0, 0, 0, 0, 0, 0, 0, 0, 0, 0, 0, 0, 0, 0, 0, 0, 0, 0, 0, 0, 0, 0, 0, 0, 0, 0, 0, 0, 0, 0, 0, 0, 0, 0, 0, 0, 0, 0, 0, 0, 0, 0, 0, 0, 0, 0, 0, 0, 0, 0, 0, 0, 0, 0, 0, 0, 0, 0, 0, 0, 0, 0, 0, 0, 0, 0, 0, 0, 0, 0, 0, 0, 0, 0, 0, 0, 0, 0, 0, 0, 0, 0, 0, 0, 0, 0, 0, 0, 0, 0, 0, 0, 0, 0, 0, 0, 0, 0, 0, 0, 0, 0, 0, 0, 0, 0, 0, 0, 0, 0, 0, 0, 0, 0, 0]⟩, 34)
/-- Result of the first (wiping) forward induction pass. -/
def sixFwd : List Int × Buckets :=
  ([0, 0, 0, 0, 0, 0, 0, 0, 0, 0, 0, 0, 0, 0, 0, 0, 0, 0, 0, 0, 0, 0, 0, 0, 0, 0, 0, 0, 0, 0, 0, 0, 0, 0, 0, 0, 0, 0, 0, 0, 0, 0, 0, 0, 0, 0, 4, 48, 0, 0, 10, 28, 54, 72, 87, 15, 59, 17, 61, 0, 22, 0, 66, 43, 0, 0, 20, 37, 64, 81, 0, 0, 35, 79, 2, 46, 6, 50, 41, 85, 30, 74, 12, 56, 24, 68, 26, 70], ⟨[46, 66, 68, 69, 70, 73, 77, 79, 80, 83, 84, 85, 88, 89], [0, 0, 0, 0, 0, 0, 0, 0, 0, 0, 0, 0, 0, 0, 0, 0, 0, 0, 0, 0, 0, 0, 0, 0, 0, 0, 0, 0, 0, 0, 0, 0, 0, 0, 0, 0, 0, 0, 0, 0, 0, 0, 0, 0, 0, 0, 14, 0, 0, 0, 0, 0, 0, 0, 0, 0, 0, 0, 0, 0, 0, 0, 0, 0, 0, 0, 2, 0, 4, 8, 2, 0, 0, 16, 0, 0, 0, 2, 0, 2, 4, 0, 0, 12, 6, 2, 0, 0, 12, 2, 0, 0, 0, 0, 0, 0, 0, 0, 0, 0, 0, 0, 0, 0, 0, 0, 0, 0, 0, 0, 0, 0, 0, 0, 0, 0, 0, 0, 0, 0, 0, 0, 0, 0, 0, 0, 0, 0, 0, 0, 0, 0, 0, 0, 0, 0, 0, 0, 0, 0, 0, 0, 0, 0, 0, 0, 0, 0, 0, 0, 0, 0, 0, 0, 0, 0, 0, 0, 0, 0, 0, 0, 0, 0, 0, 0, 0, 0, 0, 0, 0, 0, 0, 0, 0, 0, 0, 0, 0, 0, 0, 0, 0, 0, 0, 0, 0, 0, 0, 0, 0, 0, 0, 0, 0, 0, 0, 0, 0, 0, 0, 0, 0, 0, 0, 0, 0, 0, 0, 0, 0, 0, 0, 0, 0, 0, 0, 0, 0, 0, 0, 0, 0, 0, 0, 0, 0, 0, 0, 0, 0, 0, 0, 0, 0, 0, 0, 0, 0, 0, 0, 0, 0, 0, 0, 0, 0, 0, 0, 0, 0, 0, 0, 0, 0, 0], [0, 0, 0, 0, 0, 0, 0, 0, 0, 0, 0, 0, 0, 0, 0, 0, 0, 0, 0, 0, 0, 0, 0, 0, 0, 0, 0, 0, 0, 0, 0, 0, 0, 0, 0, 0, 0, 0, 0, 0, 0, 0, 0, 0, 0, 0, 0, 0, 0, 0, 0, 0, 0, 0, 0, 0, 0, 0, 0, 0, 0, 0, 0, 0, 0, 0, 14, 0, 18, 24, 28, 0, 0, 36, 0, 0, 0, 48, 0, 48, 54, 0, 0, 64, 70, 74, 0, 0, 86, 88, 0, 0, 0, 0, 0, 0, 0, 0, 0, 0, 0, 0, 0, 0, 0, 0, 0, 0, 0, 0, 0, 0, 0, 0, 0, 0, 0, 0, 0, 0, 0, 0, 0, 0, 0, 0, 0, 0, 0, 0, 0, 0, 0, 0, 0, 0, 0, 0, 0, 0, 0, 0, 0, 0, 0, 0, 0, 0, 0, 0, 0, 0, 0, 0, 0, 0, 0, 0, 0, 0, 0, 0, 0, 0, 0, 0, 0, 0, 0, 0, 0, 0, 0, 0, 0, 0, 0, 0, 0, 0, 0, 0, 0, 0, 0, 0, 0, 0, 0, 0, 0, 0, 0, 0, 0, 0, 0, 0, 0, 0, 0, 0, 0, 0, 0, 0, 0, 0, 0, 0, 0, 0, 0, 0, 0, 0, 0, 0, 0, 0, 0, 0, 0, 0, 0, 0, 0, 0, 0, 0, 0, 0, 0, 0, 0, 0, 0, 0, 0, 0, 0, 0, 0, 0, 0, 0, 0, 0, 0, 0, 0, 0, 0, 0, 0, 0]⟩)
/-- Result of the first (wiping) backward induction pass. -/
def sixBck : List Int × Buckets :=
  ([-39, -83, -34, -78, -4, -48, -10, -28, -54, -72, -17, -61, -22, -66, 0, 0, 0, 0, 0, 0, 0, 0, 0, 0, -87, -15, -59, -43, -20, -64, 0, 0, 0, 0, 0, 0, -2, -46, -6, -50, -30, -74, -12, -56, -24, -68, 0, 0, 0, 0, 0, 0, 0, 0, 0, 0, 0, 0, 0, 0, 0, 0, 0, 0, -37, -81, 0, 0, 0, 0, -26, -70, 0, 0, 0, 0, 0, 0, 0, 0, 0, 0, 0, 0, 0, 0, 0, 0], ⟨[46, 66, 68, 69, 70, 73, 77, 79, 80, 83, 84, 85, 88, 89], [0, 0, 0, 0, 0, 0, 0, 0, 0, 0, 0, 0, 0, 0, 0, 0, 0, 0, 0, 0, 0, 0, 0, 0, 0, 0, 0, 0, 0, 0, 0, 0, 0, 0, 0, 0, 0, 0, 0, 0, 0, 0, 0, 0, 0, 0, 14, 0, 0, 0, 0, 0, 0, 0, 0, 0, 0, 0, 0, 0, 0, 0, 0, 0, 0, 0, 2, 0, 4, 8, 2, 0, 0, 16, 0, 0, 0, 2, 0, 2, 4, 0, 0, 12, 6, 2, 0, 0, 12, 2, 0, 0, 0, 0, 0, 0, 0, 0, 0, 0, 0, 0, 0, 0, 0, 0, 0, 0, 0, 0, 0, 0, 0, 0, 0, 0, 0, 0, 0, 0, 0, 0, 0, 0, 0, 0, 0, 0, 0, 0, 0, 0, 0, 0, 0, 0, 0, 0, 0, 0, 0, 0, 0, 0, 0, 0, 0, 0, 0, 0, 0, 0, 0, 0, 0, 0, 0, 0, 0, 0, 0, 0, 0, 0, 0, 0, 0, 0, 0, 0, 0, 0, 0, 0, 0, 0, 0, 0, 0, 0, 0, 0, 0, 0, 0, 0, 0, 0, 0, 0, 0, 0, 0, 0, 0, 0, 0, 0, 0, 0, 0, 0, 0, 0, 0, 0, 0, 0, 0, 0, 0, 0, 0, 0, 0, 0, 0, 0, 0, 0, 0, 0, 0, 0, 0, 0, 0, 0, 0, 0, 0, 0, 0, 0, 0, 0, 0, 0, 0, 0, 0, 0, 0, 0, 0, 0, 0, 0, 0, 0, 0, 0, 0, 0, 0, 0], [0, 0, 0, 0, 0, 0, 0, 0, 0, 0, 0, 0, 0, 0, 0, 0, 0, 0, 0, 0, 0, 0, 0, 0, 0, 0, 0, 0, 0, 0, 0, 0, 0, 0, 0, 0, 0, 0, 0, 0, 0, 0, 0, 0, 0, 0, 4294967295, 0, 0, 0, 0, 0, 0, 0, 0, 0, 0, 0, 0, 0, 0, 0, 0, 0, 0, 0, 13, 0, 17, 23, 27, 0, 0, 35, 0, 0, 0, 47, 0, 47, 53, 0, 0, 63, 69, 73, 0, 0, 85, 87, 0, 0, 0, 0, 0, 0, 0, 0, 0, 0, 0, 0, 0, 0, 0, 0, 0, 0, 0, 0, 0, 0, 0, 0, 0, 0, 0, 0, 0, 0, 0, 0, 0, 0, 0, 0, 0, 0, 0, 0, 0, 0, 0, 0, 0, 0, 0, 0, 0, 0, 0, 0, 0, 0, 0, 0, 0, 0, 0, 0, 0, 0, 0, 0, 0, 0, 0, 0, 0, 0, 0, 0, 0, 0, 0, 0, 0, 0, 0, 0, 0, 0, 0, 0, 0, 0, 0, 0, 0, 0, 0, 0, 0, 0, 0, 0, 0, 0, 0, 0, 0, 0, 0, 0, 0, 0, 0, 0, 0, 0, 0, 0, 0, 0, 0, 0, 0, 0, 0, 0, 0, 0, 0, 0, 0, 0, 0, 0, 0, 0, 0, 0, 0, 0, 0, 0, 0, 0, 0, 0, 0, 0, 0, 0, 0, 0, 0, 0, 0, 0, 0, 0, 0, 0, 0, 0, 0, 0, 0, 0, 0, 0, 0, 0, 0, 0]⟩)
/-- Result of `encode_reduced`: 34 LMS-substrings, 17 distinct names. -/
def sixEnc : List Int × Nat × Nat :=
  ([38, 82, 33, 77, 3, 47, 9, 27, 53, 71, 16, 60, 21, 65, 86, 14, 58, 42, 19, 63, 1, 45, 5, 49, 29, 73, 11, 55, 23, 67, 36, 80, 25, 69, 10, 2, 11, 2147483647, 3, 13, 2147483647, 7, 4, 9, 5, 14, 16, 3, 12, 2147483647, 1, 2147483647, 15, 0, 10, 2, 11, 3, 13, 7, 4, 9, 5, 14, 16, 3, 12, 1, 15, 0, 8, 10, 2, 11, 3, 13, 7, 4, 9, 5, 14, 16, 3, 12, 1, 15, 0, 6], 34, 17)
/-- The reduced word of the 34 LMS-substring names. -/
def sixRdata : List Nat := [10, 2, 11, 3, 13, 7, 4, 9, 5, 14, 16, 3, 12, 1, 15, 0, 8, 10, 2, 11, 3, 13, 7, 4, 9, 5, 14, 16, 3, 12, 1, 15, 0, 6]
/-- `saisStep1` on the reduced word. -/
def sixISt1 : List Int × Buckets × Nat :=
  ([15, 32, 13, 30, 1, 18, 3, 11, 20, 28, 6, 23, 8, 25, 0, 0, 0, 0, 0, 0, 0, 0, 0, 0, 0, 0, 0, 0, 0, 0, 0, 0, 0, 0], ⟨[0, 1, 2, 3, 4, 5, 6, 7, 8, 9, 10, 11, 12, 13, 14, 15, 16], [2, 2, 2, 4, 2, 2, 1, 2, 1, 2, 2, 2, 2, 2, 2, 2, 2], [4294967295, 1, 3, 5, 9, 11, 14, 16, 17, 19, 21, 23, 25, 27, 29, 31, 33]⟩, 14)
/-- First forward induction pass of the reduced problem. -/
def sixIFwd : List Int × Buckets :=
  ([0, 0, 0, 0, 0, 0, 0, 0, 0, 0, 0, 0, 0, 0, 33, 0, 0, 0, 7, 24, 0, 17, 2, 19, 12, 29, 4, 21, 0, 0, 14, 31, 10, 27], ⟨[0, 1, 2, 3, 4, 5, 6, 7, 8, 9, 10, 11, 12, 13, 14, 15, 16], [2, 2, 2, 4, 2, 2, 1, 2, 1, 2, 2, 2, 2, 2, 2, 2, 2], [0, 2, 4, 6, 10, 12, 15, 17, 17, 20, 22, 24, 26, 28, 28, 32, 34]⟩)
/-- First backward induction pass of the reduced problem. -/
def sixIBck : List Int × Buckets :=
  ([-33, -16, -14, -31, -2, -19, -12, -29, -4, -21, -7, -24, -9, -26, 0, 0, 0, 0, 0, 0, 0, 0, 0, 0, 0, 0, 0, 0, 0, 0, 0, 0, 0, 0], ⟨[0, 1, 2, 3, 4, 5, 6, 7, 8, 9, 10, 11, 12, 13, 14, 15, 16], [2, 2, 2, 4, 2, 2, 1, 2, 1, 2, 2, 2, 2, 2, 2, 2, 2], [4294967295, 1, 3, 5, 9, 11, 14, 16, 16, 19, 21, 23, 25, 27, 27, 31, 33]⟩)
/-- `encode_reduced` of the reduced problem: 14 LMS-substrings, 8 names. -/
def sixIEnc : List Int × Nat × Nat :=
  ([32, 15, 13, 30, 1, 18, 11, 28, 3, 20, 6, 23, 8, 25, 3, 5, 2147483647, 6, 7, 4, 3, 5, 6, 7, 4, 2, 1, 3, 5, 6, 7, 4, 2, 0], 14, 8)
/-- `saisReduce` of the reduced problem (one further recursion level). -/
def sixIRed : List Int := [13, 6, 12, 5, 7, 0, 11, 4, 8, 1, 9, 2, 10, 3, 0, 0, 0, 0, 0, 0, 3, 5, 6, 7, 4, 2, 1, 3, 5, 6, 7, 4, 2, 0]
/-- `decode_reduced` of the reduced problem. -/
def sixIDec : List Int := [32, 15, 30, 13, 18, 1, 28, 11, 20, 3, 23, 6, 25, 8, 0, 0, 0, 0, 0, 0, 0, 0, 0, 0, 0, 0, 0, 0, 0, 0, 0, 0, 0, 0]
/-- Rebuilt, re-tailed buckets of the reduced problem. -/
def sixIBk2 : Buckets := ⟨[0, 1, 2, 3, 4, 5, 6, 7, 8, 9, 10, 11, 12, 13, 14, 15, 16], [2, 2, 2, 4, 2, 2, 1, 2, 1, 2, 2, 2, 2, 2, 2, 2, 2], [1, 3, 5, 9, 11, 13, 14, 16, 17, 19, 21, 23, 25, 27, 29, 31, 33]⟩
/-- `spaceLms` of the reduced problem. -/
def sixISp : List Int × Buckets :=
  ([32, 15, 30, 13, 18, 1, 28, 11, 20, 3, 23, 6, 25, 8, 0, 0, 0, 0, 0, 0, 0, 0, 0, 0, 0, 0, 0, 0, 0, 0, 0, 0, 0, 0], ⟨[0, 1, 2, 3, 4, 5, 6, 7, 8, 9, 10, 11, 12, 13, 14, 15, 16], [2, 2, 2, 4, 2, 2, 1, 2, 1, 2, 2, 2, 2, 2, 2, 2, 2], [4294967295, 1, 3, 5, 9, 11, 14, 16, 17, 19, 21, 23, 25, 27, 29, 31, 33]⟩)
/-- Final forward induction pass of the reduced problem. -/
def sixIFf : List Int × Buckets :=
  ([-33, -16, -31, -14, -19, -2, -29, -12, -21, -4, -24, -7, -26, -9, 33, -23, -6, 0, 24, 7, 17, 0, 19, 2, 29, 12, 21, 4, 0, 0, 31, 14, 27, 10], ⟨[0, 1, 2, 3, 4, 5, 6, 7, 8, 9, 10, 11, 12, 13, 14, 15, 16], [2, 2, 2, 4, 2, 2, 1, 2, 1, 2, 2, 2, 2, 2, 2, 2, 2], [0, 2, 4, 6, 10, 12, 15, 17, 17, 20, 22, 24, 26, 28, 28, 32, 34]⟩)
/-- Final backward induction pass of the reduced problem; its first
component is `sais 34 17 sixRdata`. -/
def sixIFb : List Int := [32, 15, 30, 13, 18, 1, 28, 11, 20, 3, 23, 6, 25, 8, 33, 22, 5, 16, 24, 7, 17, 0, 19, 2, 29, 12, 21, 4, 26, 9, 31, 14, 27, 10]
/-- The suffix-array region returned by `saisReduce` at the top level. -/
def sixRed : List Int := [32, 15, 30, 13, 18, 1, 28, 11, 20, 3, 23, 6, 25, 8, 33, 22, 5, 16, 24, 7, 17, 0, 19, 2, 29, 12, 21, 4, 26, 9, 31, 14, 27, 10, 0, 0, 0, 0, 0, 0, 0, 0, 0, 0, 0, 0, 0, 0, 0, 0, 0, 0, 0, 0, 10, 2, 11, 3, 13, 7, 4, 9, 5, 14, 16, 3, 12, 1, 15, 0, 8, 10, 2, 11, 3, 13, 7, 4, 9, 5, 14, 16, 3, 12, 1, 15, 0, 6]
/-- Result of `decode_reduced` at the top level. -/
def sixDec : List Int := [82, 38, 77, 33, 47, 3, 71, 27, 53, 9, 60, 16, 65, 21, 86, 58, 14, 42, 63, 19, 45, 1, 49, 5, 73, 29, 55, 11, 67, 23, 80, 36, 69, 25, 0, 0, 0, 0, 0, 0, 0, 0, 0, 0, 0, 0, 0, 0, 0, 0, 0, 0, 0, 0, 0, 0, 0, 0, 0, 0, 0, 0, 0, 0, 0, 0, 0, 0, 0, 0, 0, 0, 0, 0, 0, 0, 0, 0, 0, 0, 0, 0, 0, 0, 0, 0, 0, 0]
/-- The re-tailed buckets for the top-level spacing-out loop. -/
def sixTails : Buckets := ⟨[46, 66, 68, 69, 70, 73, 77, 79, 80, 83, 84, 85, 88, 89], [0, 0, 0, 0, 0, 0, 0, 0, 0, 0, 0, 0, 0, 0, 0, 0, 0, 0, 0, 0, 0, 0, 0, 0, 0, 0, 0, 0, 0, 0, 0, 0, 0, 0, 0, 0, 0, 0, 0, 0, 0, 0, 0, 0, 0, 0, 14, 0, 0, 0, 0, 0, 0, 0, 0, 0, 0, 0, 0, 0, 0, 0, 0, 0, 0, 0, 2, 0, 4, 8, 2, 0, 0, 16, 0, 0, 0, 2, 0, 2, 4, 0, 0, 12, 6, 2, 0, 0, 12, 2, 0, 0, 0, 0, 0, 0, 0, 0, 0, 0, 0, 0, 0, 0, 0, 0, 0, 0, 0, 0, 0, 0, 0, 0, 0, 0, 0, 0, 0, 0, 0, 0, 0, 0, 0, 0, 0, 0, 0, 0, 0, 0, 0, 0, 0, 0, 0, 0, 0, 0, 0, 0, 0, 0, 0, 0, 0, 0, 0, 0, 0, 0, 0, 0, 0, 0, 0, 0, 0, 0, 0, 0, 0, 0, 0, 0, 0, 0, 0, 0, 0, 0, 0, 0, 0, 0, 0, 0, 0, 0, 0, 0, 0, 0, 0, 0, 0, 0, 0, 0, 0, 0, 0, 0, 0, 0, 0, 0, 0, 0, 0, 0, 0, 0, 0, 0, 0, 0, 0, 0, 0, 0, 0, 0, 0, 0, 0, 0, 0, 0, 0, 0, 0, 0, 0, 0, 0, 0, 0, 0, 0, 0, 0, 0, 0, 0, 0, 0, 0, 0, 0, 0, 0, 0, 0, 0, 0, 0, 0, 0, 0, 0, 0, 0, 0, 0], [0, 0, 0, 0, 0, 0, 0, 0, 0, 0, 0, 0, 0, 0, 0, 0, 0, 0, 0, 0, 0, 0, 0, 0, 0, 0, 0, 0, 0, 0, 0, 0, 0, 0, 0, 0, 0, 0, 0, 0, 0, 0, 0, 0, 0, 0, 13, 0, 0, 0, 0, 0, 0, 0, 0, 0, 0, 0, 0, 0, 0, 0, 0, 0, 0, 0, 15, 0, 19, 27, 29, 0, 0, 45, 0, 0, 0, 47, 0, 49, 53, 0, 0, 65, 71, 73, 0, 0, 85, 87, 0, 0, 0, 0, 0, 0, 0, 0, 0, 0, 0, 0, 0, 0, 0, 0, 0, 0, 0, 0, 0, 0, 0, 0, 0, 0, 0, 0, 0, 0, 0, 0, 0, 0, 0, 0, 0, 0, 0, 0, 0, 0, 0, 0, 0, 0, 0, 0, 0, 0, 0, 0, 0, 0, 0, 0, 0, 0, 0, 0, 0, 0, 0, 0, 0, 0, 0, 0, 0, 0, 0, 0, 0, 0, 0, 0, 0, 0, 0, 0, 0, 0, 0, 0, 0, 0, 0, 0, 0, 0, 0, 0, 0, 0, 0, 0, 0, 0, 0, 0, 0, 0, 0, 0, 0, 0, 0, 0, 0, 0, 0, 0, 0, 0, 0, 0, 0, 0, 0, 0, 0, 0, 0, 0, 0, 0, 0, 0, 0, 0, 0, 0, 0, 0, 0, 0, 0, 0, 0, 0, 0, 0, 0, 0, 0, 0, 0, 0, 0, 0, 0, 0, 0, 0, 0, 0, 0, 0, 0, 0, 0, 0, 0, 0, 0, 0]⟩
/-- Result of the top-level `spaceLms`. -/
def sixSp : List Int × Buckets :=
  ([82, 38, 77, 33, 47, 3, 71, 27, 53, 9, 60, 16, 65, 21, 0, 0, 0, 0, 0, 0, 0, 0, 0, 0, 86, 58, 14, 42, 63, 19, 0, 0, 0, 0, 0, 0, 45, 1, 49, 5, 73, 29, 55, 11, 67, 23, 0, 0, 0, 0, 0, 0, 0, 0, 0, 0, 0, 0, 0, 0, 0, 0, 0, 0, 80, 36, 0, 0, 0, 0, 69, 25, 0, 0, 0, 0, 0, 0, 0, 0, 0, 0, 0, 0, 0, 0, 0, 0], ⟨[46, 66, 68, 69, 70, 73, 77, 79, 80, 83, 84, 85, 88, 89], [0, 0, 0, 0, 0, 0, 0, 0, 0, 0, 0, 0, 0, 0, 0, 0, 0, 0, 0, 0, 0, 0, 0, 0, 0, 0, 0, 0, 0, 0, 0, 0, 0, 0, 0, 0, 0, 0, 0, 0, 0, 0, 0, 0, 0, 0, 14, 0, 0, 0, 0, 0, 0, 0, 0, 0, 0, 0, 0, 0, 0, 0, 0, 0, 0, 0, 2, 0, 4, 8, 2, 0, 0, 16, 0, 0, 0, 2, 0, 2, 4, 0, 0, 12, 6, 2, 0, 0, 12, 2, 0, 0, 0, 0, 0, 0, 0, 0, 0, 0, 0, 0, 0, 0, 0, 0, 0, 0, 0, 0, 0, 0, 0, 0, 0, 0, 0, 0, 0, 0, 0, 0, 0, 0, 0, 0, 0, 0, 0, 0, 0, 0, 0, 0, 0, 0, 0, 0, 0, 0, 0, 0, 0, 0, 0, 0, 0, 0, 0, 0, 0, 0, 0, 0, 0, 0, 0, 0, 0, 0, 0, 0, 0, 0, 0, 0, 0, 0, 0, 0, 0, 0, 0, 0, 0, 0, 0, 0, 0, 0, 0, 0, 0, 0, 0, 0, 0, 0, 0, 0, 0, 0, 0, 0, 0, 0, 0, 0, 0, 0, 0, 0, 0, 0, 0, 0, 0, 0, 0, 0, 0, 0, 0, 0, 0, 0, 0, 0, 0, 0, 0, 0, 0, 0, 0, 0, 0, 0, 0, 0, 0, 0, 0, 0, 0, 0, 0, 0, 0, 0, 0, 0, 0, 0, 0, 0, 0, 0, 0, 0, 0, 0, 0, 0, 0, 0], [0, 0, 0, 0, 0, 0, 0, 0, 0, 0, 0, 0, 0, 0, 0, 0, 0, 0, 0, 0, 0, 0, 0, 0, 0, 0, 0, 0, 0, 0, 0, 0, 0, 0, 0, 0, 0, 0, 0, 0, 0, 0, 0, 0, 0, 0, 4294967295, 0, 0, 0, 0, 0, 0, 0, 0, 0, 0, 0, 0, 0, 0, 0, 0, 0, 0, 0, 15, 0, 19, 23, 27, 0, 0, 35, 0, 0, 0, 47, 0, 49, 53, 0, 0, 63, 69, 73, 0, 0, 85, 87, 0, 0, 0, 0, 0, 0, 0, 0, 0, 0, 0, 0, 0, 0, 0, 0, 0, 0, 0, 0, 0, 0, 0, 0, 0, 0, 0, 0, 0, 0, 0, 0, 0, 0, 0, 0, 0, 0, 0, 0, 0, 0, 0, 0, 0, 0, 0, 0, 0, 0, 0, 0, 0, 0, 0, 0, 0, 0, 0, 0, 0, 0, 0, 0, 0, 0, 0, 0, 0, 0, 0, 0, 0, 0, 0, 0, 0, 0, 0, 0, 0, 0, 0, 0, 0, 0, 0, 0, 0, 0, 0, 0, 0, 0, 0, 0, 0, 0, 0, 0, 0, 0, 0, 0, 0, 0, 0, 0, 0, 0, 0, 0, 0, 0, 0, 0, 0, 0, 0, 0, 0, 0, 0, 0, 0, 0, 0, 0, 0, 0, 0, 0, 0, 0, 0, 0, 0, 0, 0, 0, 0, 0, 0, 0, 0, 0, 0, 0, 0, 0, 0, 0, 0, 0, 0, 0, 0, 0, 0, 0, 0, 0, 0, 0, 0, 0]⟩)
/-- Result of the final forward induction pass. -/
def sixFf : List Int × Buckets :=
  ([-257, -85, -257, -70, -257, -89, -257, -90, -257, -69, -257, -84, -257, -85, 0, 0, -257, -70, 0, 0, -257, -74, -257, -89, -257, -257, -74, -89, -257, -74, -257, -89, -257, -89, -257, -84, -257, -84, -257, -78, -257, -81, -257, -81, -257, -84, 48, 4, 0, 0, 72, 28, 54, 10, 87, 59, 15, 61, 17, -257, 0, 66, 22, 43, -257, -86, 81, 37, 64, 20, -257, -89, 79, 35, 46, 2, 50, 6, 85, 41, 74, 30, 56, 12, 68, 24, 70, 26], ⟨[46, 66, 68, 69, 70, 73, 77, 79, 80, 83, 84, 85, 88, 89], [0, 0, 0, 0, 0, 0, 0, 0, 0, 0, 0, 0, 0, 0, 0, 0, 0, 0, 0, 0, 0, 0, 0, 0, 0, 0, 0, 0, 0, 0, 0, 0, 0, 0, 0, 0, 0, 0, 0, 0, 0, 0, 0, 0, 0, 0, 14, 0, 0, 0, 0, 0, 0, 0, 0, 0, 0, 0, 0, 0, 0, 0, 0, 0, 0, 0, 2, 0, 4, 8, 2, 0, 0, 16, 0, 0, 0, 2, 0, 2, 4, 0, 0, 12, 6, 2, 0, 0, 12, 2, 0, 0, 0, 0, 0, 0, 0, 0, 0, 0, 0, 0, 0, 0, 0, 0, 0, 0, 0, 0, 0, 0, 0, 0, 0, 0, 0, 0, 0, 0, 0, 0, 0, 0, 0, 0, 0, 0, 0, 0, 0, 0, 0, 0, 0, 0, 0, 0, 0, 0, 0, 0, 0, 0, 0, 0, 0, 0, 0, 0, 0, 0, 0, 0, 0, 0, 0, 0, 0, 0, 0, 0, 0, 0, 0, 0, 0, 0, 0, 0, 0, 0, 0, 0, 0, 0, 0, 0, 0, 0, 0, 0, 0, 0, 0, 0, 0, 0, 0, 0, 0, 0, 0, 0, 0, 0, 0, 0, 0, 0, 0, 0, 0, 0, 0, 0, 0, 0, 0, 0, 0, 0, 0, 0, 0, 0, 0, 0, 0, 0, 0, 0, 0, 0, 0, 0, 0, 0, 0, 0, 0, 0, 0, 0, 0, 0, 0, 0, 0, 0, 0, 0, 0, 0, 0, 0, 0, 0, 0, 0, 0, 0, 0, 0, 0, 0], [0, 0, 0, 0, 0, 0, 0, 0, 0, 0, 0, 0, 0, 0, 0, 0, 0, 0, 0, 0, 0, 0, 0, 0, 0, 0, 0, 0, 0, 0, 0, 0, 0, 0, 0, 0, 0, 0, 0, 0, 0, 0, 0, 0, 0, 0, 0, 0, 0, 0, 0, 0, 0, 0, 0, 0, 0, 0, 0, 0, 0, 0, 0, 0, 0, 0, 14, 0, 18, 24, 28, 0, 0, 36, 0, 0, 0, 48, 0, 48, 54, 0, 0, 64, 70, 74, 0, 0, 86, 88, 0, 0, 0, 0, 0, 0, 0, 0, 0, 0, 0, 0, 0, 0, 0, 0, 0, 0, 0, 0, 0, 0, 0, 0, 0, 0, 0, 0, 0, 0, 0, 0, 0, 0, 0, 0, 0, 0, 0, 0, 0, 0, 0, 0, 0, 0, 0, 0, 0, 0, 0, 0, 0, 0, 0, 0, 0, 0, 0, 0, 0, 0, 0, 0, 0, 0, 0, 0, 0, 0, 0, 0, 0, 0, 0, 0, 0, 0, 0, 0, 0, 0, 0, 0, 0, 0, 0, 0, 0, 0, 0, 0, 0, 0, 0, 0, 0, 0, 0, 0, 0, 0, 0, 0, 0, 0, 0, 0, 0, 0, 0, 0, 0, 0, 0, 0, 0, 0, 0, 0, 0, 0, 0, 0, 0, 0, 0, 0, 0, 0, 0, 0, 0, 0, 0, 0, 0, 0, 0, 0, 0, 0, 0, 0, 0, 0, 0, 0, 0, 0, 0, 0, 0, 0, 0, 0, 0, 0, 0, 0, 0, 0, 0, 0, 0, 0]⟩)
/-- Result of the final backward induction pass. -/
def sixFb : List Int × Buckets × Nat :=
  ([256, 84, 256, 69, 256, 88, 256, 89, 256, 68, 256, 83, 256, 84, 256, 46, 256, 69, 256, 46, 256, 73, 256, 88, 256, 256, 73, 88, 256, 73, 256, 88, 256, 88, 256, 83, 256, 83, 256, 77, 256, 80, 256, 80, 256, 83, 256, 46, 256, 66, 256, 46, 256, 46, 256, 256, 69, 256, 46, 256, 0, 256, 46, 69, 256, 85, 256, 83, 256, 70, 256, 88, 256, 68, 256, 73, 256, 73, 256, 79, 256, 73, 256, 73, 256, 73, 256, 84], ⟨[46, 66, 68, 69, 70, 73, 77, 79, 80, 83, 84, 85, 88, 89], [0, 0, 0, 0, 0, 0, 0, 0, 0, 0, 0, 0, 0, 0, 0, 0, 0, 0, 0, 0, 0, 0, 0, 0, 0, 0, 0, 0, 0, 0, 0, 0, 0, 0, 0, 0, 0, 0, 0, 0, 0, 0, 0, 0, 0, 0, 14, 0, 0, 0, 0, 0, 0, 0, 0, 0, 0, 0, 0, 0, 0, 0, 0, 0, 0, 0, 2, 0, 4, 8, 2, 0, 0, 16, 0, 0, 0, 2, 0, 2, 4, 0, 0, 12, 6, 2, 0, 0, 12, 2, 0, 0, 0, 0, 0, 0, 0, 0, 0, 0, 0, 0, 0, 0, 0, 0, 0, 0, 0, 0, 0, 0, 0, 0, 0, 0, 0, 0, 0, 0, 0, 0, 0, 0, 0, 0, 0, 0, 0, 0, 0, 0, 0, 0, 0, 0, 0, 0, 0, 0, 0, 0, 0, 0, 0, 0, 0, 0, 0, 0, 0, 0, 0, 0, 0, 0, 0, 0, 0, 0, 0, 0, 0, 0, 0, 0, 0, 0, 0, 0, 0, 0, 0, 0, 0, 0, 0, 0, 0, 0, 0, 0, 0, 0, 0, 0, 0, 0, 0, 0, 0, 0, 0, 0, 0, 0, 0, 0, 0, 0, 0, 0, 0, 0, 0, 0, 0, 0, 0, 0, 0, 0, 0, 0, 0, 0, 0, 0, 0, 0, 0, 0, 0, 0, 0, 0, 0, 0, 0, 0, 0, 0, 0, 0, 0, 0, 0, 0, 0, 0, 0, 0, 0, 0, 0, 0, 0, 0, 0, 0, 0, 0, 0, 0, 0, 0], [0, 0, 0, 0, 0, 0, 0, 0, 0, 0, 0, 0, 0, 0, 0, 0, 0, 0, 0, 0, 0, 0, 0, 0, 0, 0, 0, 0, 0, 0, 0, 0, 0, 0, 0, 0, 0, 0, 0, 0, 0, 0, 0, 0, 0, 0, 4294967295, 0, 0, 0, 0, 0, 0, 0, 0, 0, 0, 0, 0, 0, 0, 0, 0, 0, 0, 0, 13, 0, 17, 23, 27, 0, 0, 35, 0, 0, 0, 47, 0, 47, 53, 0, 0, 63, 69, 73, 0, 0, 85, 87, 0, 0, 0, 0, 0, 0, 0, 0, 0, 0, 0, 0, 0, 0, 0, 0, 0, 0, 0, 0, 0, 0, 0, 0, 0, 0, 0, 0, 0, 0, 0, 0, 0, 0, 0, 0, 0, 0, 0, 0, 0, 0, 0, 0, 0, 0, 0, 0, 0, 0, 0, 0, 0, 0, 0, 0, 0, 0, 0, 0, 0, 0, 0, 0, 0, 0, 0, 0, 0, 0, 0, 0, 0, 0, 0, 0, 0, 0, 0, 0, 0, 0, 0, 0, 0, 0, 0, 0, 0, 0, 0, 0, 0, 0, 0, 0, 0, 0, 0, 0, 0, 0, 0, 0, 0, 0, 0, 0, 0, 0, 0, 0, 0, 0, 0, 0, 0, 0, 0, 0, 0, 0, 0, 0, 0, 0, 0, 0, 0, 0, 0, 0, 0, 0, 0, 0, 0, 0, 0, 0, 0, 0, 0, 0, 0, 0, 0, 0, 0, 0, 0, 0, 0, 0, 0, 0, 0, 0, 0, 0, 0, 0, 0, 0, 0, 0]⟩, 60)
/-- Result of the BWT read-out loop. -/
def sixRo : List Nat × Nat :=
  ([83, 73, 88, 46, 77, 73, 88, 69, 68, 46, 80, 73, 88, 73, 69, 83, 46, 83, 73, 70, 84, 46, 83, 73, 88, 84, 89, 46, 80, 73, 88, 73, 69, 46, 68, 85, 83, 84, 46, 66, 79, 88, 69, 83, 84, 69, 88, 89, 68, 83, 84, 46, 69, 46, 73, 88, 73, 88, 73, 88, 88, 83, 83, 77, 80, 80, 83, 46, 66, 46, 46, 69, 46, 83, 46, 69, 85, 83, 70, 88, 68, 73, 73, 79, 73, 73, 73, 84], 29)
/-- The bytes of "TEXYDST.E.IXIXIXXSSMPPS.B..E.S.EUSFXDIIOIIIT". -/
def sixOut : List Nat := [84, 69, 88, 89, 68, 83, 84, 46, 69, 46, 73, 88, 73, 88, 73, 88, 88, 83, 83, 77, 80, 80, 83, 46, 66, 46, 46, 69, 46, 83, 46, 69, 85, 83, 70, 88, 68, 73, 73, 79, 73, 73, 73, 84]

lemma six_data_eq : sixIn ++ sixIn = sixData := by decide

lemma six_len : sixIn.length = 44 := by decide

set_option maxRecDepth 4000000 in
lemma six_st1 : bwtStep1 sixData = sixSt1 := by decide

set_option maxRecDepth 4000000 in
lemma six_fwd : induced_sort_fwd sixData sixSt1.2.1 sixSt1.2.2.1 true = sixFwd := by decide

set_option maxRecDepth 4000000 in
lemma six_bck : induced_sort_bck sixData sixFwd.1 sixFwd.2 true false = sixBck := by decide

set_option maxRecDepth 4000000 in
lemma six_enc : encode_reduced sixData sixBck.1 = sixEnc := by decide

lemma six_lc : sixEnc.2.1 = 34 := by decide

lemma six_ns : sixEnc.2.2 = 17 := by decide

set_option maxRecDepth 4000000 in
lemma six_rdata : reducedWord sixData sixEnc.1 34 = sixRdata := by decide

set_option maxRecDepth 4000000 in
lemma six_i_st1 : saisStep1 17 sixRdata = sixISt1 := by decide

set_option maxRecDepth 4000000 in
lemma six_i_fwd : induced_sort_fwd sixRdata sixISt1.1 sixISt1.2.1 true = sixIFwd := by decide

set_option maxRecDepth 4000000 in
lemma six_i_bck : induced_sort_bck sixRdata sixIFwd.1 sixIFwd.2 true false = sixIBck := by decide

set_option maxRecDepth 4000000 in
lemma six_i_enc : encode_reduced sixRdata sixIBck.1 = sixIEnc := by decide

set_option maxRecDepth 4000000 in
lemma six_i_red : saisReduce (sais 33) sixRdata sixIEnc.1 sixIEnc.2.1 sixIEnc.2.2 = sixIRed := by decide

set_option maxRecDepth 4000000 in
lemma six_i_dec : decode_reduced sixRdata sixIRed sixIEnc.2.1 = sixIDec := by decide

set_option maxRecDepth 4000000 in
lemma six_i_bk2 : setPtrsTails (bucketsBuild sixRdata 17) = sixIBk2 := by decide

set_option maxRecDepth 4000000 in
lemma six_i_sp : spaceLms sixRdata sixIDec sixIBk2 sixIEnc.2.1 = sixISp := by decide

set_option maxRecDepth 4000000 in
lemma six_i_ff : induced_sort_fwd sixRdata sixISp.1 sixISp.2 false = sixIFf := by decide

set_option maxRecDepth 4000000 in
lemma six_i_fb : (induced_sort_bck sixRdata sixIFf.1 sixIFf.2 false true).1 = sixIFb := by decide

set_option maxRecDepth 4000000 in
lemma six_sais34 : sais 34 17 sixRdata = sixIFb := by
  have h : sais 34 17 sixRdata = saisBody (sais 33) 17 sixRdata := rfl
  have hgt : sixISt1.2.2 > 1 := by decide
  rw [h]
  simp only [saisBody, six_i_st1, if_pos hgt, six_i_fwd, six_i_bck, six_i_enc, six_i_red,
    six_i_dec, six_i_bk2, six_i_sp, six_i_ff, six_i_fb]

set_option maxRecDepth 4000000 in
lemma six_reduce : saisReduce (sais 34) sixData sixEnc.1 34 17 = sixRed := by
  have hne : (17 : Nat) ≠ 34 := by decide
  simp only [saisReduce, if_pos hne, six_rdata, six_sais34]
  decide

set_option maxRecDepth 4000000 in
lemma six_dec : decode_reduced sixData sixRed 34 = sixDec := by decide

set_option maxRecDepth 4000000 in
lemma six_tails_eq : setPtrsTails sixBck.2 = sixTails := by decide

set_option maxRecDepth 4000000 in
lemma six_space : spaceLms sixData sixDec sixTails 34 = sixSp := by decide

set_option maxRecDepth 4000000 in
lemma six_middle : bwtMiddle sixData sixSt1.2.1 sixSt1.2.2.1 = sixSp := by
  simp only [bwtMiddle, six_fwd, six_bck, six_enc, six_lc, six_ns, six_reduce, six_dec,
    six_tails_eq, six_space]

set_option maxRecDepth 4000000 in
lemma six_ff : bwtFinalFwd sixData 44 sixSp.1 sixSp.2 = sixFf := by decide

set_option maxRecDepth 4000000 in
lemma six_fb : bwtFinalBck sixData 44 sixFf.1 sixFf.2 = sixFb := by decide

set_option maxRecDepth 4000000 in
lemma six_ro : bwtReadout sixData 44 sixFb.1 sixFb.2.2 = sixRo := by decide

set_option maxRecDepth 4000000 in
lemma six_main : bwtMain sixIn = { bwt := sixOut, ptr := 29, has_byte := sixSt1.1 } := by
  have hgt : sixSt1.2.2.2 > 1 := by decide
  simp only [bwtMain, six_data_eq, six_len, six_st1, if_pos hgt, six_middle, six_ff, six_fb,
    six_ro]
  decide

end Bwt

namespace Mtf

/-!
## Move-to-front and RLE2 (`src/lib/mtf.rs`)

The 256-entry `names` and `recency` arrays and the 258-entry `freqs`
array are `List Nat`s; `u16` symbols are `Nat`.  The zero-run encoder's
`loop` halves `code` each step, so a fuel of `code` itself bounds it and
the recursion stays structural.
-/

/-- Result of `mtf_and_rle` (`struct Mtf`). -/
structure Mtf where
  output : List Nat
  num_syms : Nat
  freqs : List Nat
  deriving Repr, DecidableEq

/-- The sequential naming pass over `has_byte`: `names[b]` is the rank of
present byte `b`; returns `(names, num_names)`. -/
def namesBuild (has_byte : List Bool) : List Nat × Nat :=
  let r := has_byte.foldl
    (fun (st : List Nat × Nat × Nat) present =>
      if present then (st.1.set st.2.2 st.2.1, st.2.1 + 1, st.2.2 + 1)
      else (st.1, st.2.1, st.2.2 + 1))
    (List.replicate 256 0, 0, 0)
  (r.1, r.2.1)

/-- The zero-run encoder's `loop` body: emit the bits of `code` low-first,
stopping once the shifted `code` reaches zero (the leading 1 is dropped);
`RUNA = 0` for bit 0, `RUNB = 1` for bit 1. -/
def rleZeroRun : Nat → Nat → List Nat → List Nat → List Nat × List Nat
  | 0, _, output, freqs => (output, freqs)
  | fuel + 1, code, output, freqs =>
    let bit := code % 2
    let code' := code / 2
    if code' = 0 then (output, freqs)
    else if bit = 0 then
      rleZeroRun fuel code' (output ++ [0]) (freqs.set 0 (freqs.getD 0 0 + 1))
    else
      rleZeroRun fuel code' (output ++ [1]) (freqs.set 1 (freqs.getD 1 0 + 1))

/-- The `rle` closure: encode a zero-run of length `zero_count` (the loop
works on `code = zero_count + 1`). -/
def rleRun (zero_count : Nat) (output freqs : List Nat) : List Nat × List Nat :=
  rleZeroRun (zero_count + 1) (zero_count + 1) output freqs

/-- The swap walk over `recency` entries from index `r_i` on (the
`r_iter` loop): every visited slot takes the carried value `n0`; on
finding `i_name` the walk stops and reports its recency index. -/
def mtfShuffle (i_name : Nat) : Nat → List Nat → Nat → List Nat × Option Nat
  | _, [], _ => ([], none)
  | n0, pos :: rest, r_i =>
    if i_name = pos then (n0 :: rest, some r_i)
    else
      let r := mtfShuffle i_name pos rest (r_i + 1)
      (n0 :: r.1, r.2)

/-- The main encoding loop of `mtf_and_rle`; returns the final
`(recency, zero_count, output, freqs)`. -/
def mtfLoop (names : List Nat) :
    List Nat → List Nat → Nat → List Nat → List Nat →
      List Nat × Nat × List Nat × List Nat
  | [], recency, zero_count, output, freqs => (recency, zero_count, output, freqs)
  | b :: rest, recency, zero_count, output, freqs =>
    let i_name := names.getD b 0
    let primary := recency.getD 0 0
    if i_name = primary then
      mtfLoop names rest recency (zero_count + 1) output freqs
    else
      let of1 := if zero_count ≠ 0 then rleRun zero_count output freqs else (output, freqs)
      let sh := mtfShuffle i_name primary recency.tail 1
      let of2 :=
        match sh.2 with
        | some j => (of1.1 ++ [j + 1], of1.2.set (j + 1) (of1.2.getD (j + 1) 0 + 1))
        | none => of1
      mtfLoop names rest (i_name :: sh.1) 0 of2.1 of2.2

/-- `mtf_and_rle`: MTF and RLE2 in tandem over the BWT column. -/
def mtf_and_rle (buf : List Nat) (has_byte : List Bool) : Mtf :=
  let nb := namesBuild has_byte
  let names := nb.1
  let num_names := nb.2
  let eob := num_names + 1
  let recency0 := (List.range num_names).foldl
    (fun (r : List Nat) n => r.set n n) (List.replicate 256 0)
  let st := mtfLoop names buf recency0 0 [] (List.replicate 258 0)
  let of1 :=
    if st.2.1 ≠ 0 then rleRun st.2.1 st.2.2.1 st.2.2.2 else (st.2.2.1, st.2.2.2)
  { output := of1.1 ++ [eob]
    num_syms := num_names + 2
    freqs := of1.2.set eob 1 }

lemma getD_set_cases (l : List Nat) (i a b : Nat) :
    (l.set i a).getD b 0 = a ∨ (l.set i a).getD b 0 = l.getD b 0 := by
  by_cases hib : i = b
  · subst hib
    by_cases hlt : i < l.length
    · left
      simp [List.getD_eq_getElem?_getD, List.getElem?_set_self, hlt]
    · right
      rw [List.set_eq_of_length_le (by omega)]
  · right
    simp [List.getD_eq_getElem?_getD, List.getElem?_set_ne (by omega : i ≠ b)]

lemma namesBuild_lt (has_byte : List Bool) (b : Nat) :
    (namesBuild has_byte).1.getD b 0 < max (namesBuild has_byte).2 1 := by
  suffices h : ∀ (l : List Bool) (st : List Nat × Nat × Nat),
      (∀ b, st.1.getD b 0 < max st.2.1 1) →
      ∀ b, (l.foldl
        (fun (st : List Nat × Nat × Nat) present =>
          if present then (st.1.set st.2.2 st.2.1, st.2.1 + 1, st.2.2 + 1)
          else (st.1, st.2.1, st.2.2 + 1)) st).1.getD b 0
        < max (l.foldl
        (fun (st : List Nat × Nat × Nat) present =>
          if present then (st.1.set st.2.2 st.2.1, st.2.1 + 1, st.2.2 + 1)
          else (st.1, st.2.1, st.2.2 + 1)) st).2.1 1 by
    refine h has_byte _ (fun b => ?_) b
    have hz : (List.replicate 256 (0:Nat)).getD b 0 = 0 := by
      rcases Nat.lt_or_ge b 256 with hb | hb
      · rw [List.getD_eq_getElem?_getD, List.getElem?_replicate]
        simp [hb]
      · rw [List.getD_eq_getElem?_getD, List.getElem?_eq_none (by simpa using hb)]
        rfl
    rw [hz]
    omega
  intro l
  induction l with
  | nil => intro st h b; exact h b
  | cons x xs ih =>
    intro st h b
    apply ih
    intro c
    by_cases hx : x = true
    · subst hx
      simp only [if_true]
      rcases getD_set_cases st.1 st.2.2 st.2.1 c with h1 | h1
      · simp only [h1]; omega
      · simp only [h1]
        have := h c
        omega
    · simp only [eq_false_of_ne_true hx, if_false]
      have := h c
      simpa using this

lemma rleZeroRun_mem : ∀ (fuel code : Nat) (output freqs : List Nat) (s : Nat),
    s ∈ (rleZeroRun fuel code output freqs).1 → s ∈ output ∨ s ≤ 1 := by
  intro fuel
  induction fuel with
  | zero => intro code output freqs s hs; exact Or.inl hs
  | succ n ih =>
    intro code output freqs s hs
    rw [rleZeroRun] at hs
    by_cases hc : code / 2 = 0
    · simp only [hc, if_pos rfl] at hs
      exact Or.inl hs
    · simp only [if_neg hc] at hs
      by_cases hb : code % 2 = 0
      · simp only [hb, if_pos rfl] at hs
        rcases ih _ _ _ _ hs with h | h
        · rcases List.mem_append.1 h with h | h
          · exact Or.inl h
          · simp at h; omega
        · exact Or.inr h
      · simp only [if_neg hb] at hs
        rcases ih _ _ _ _ hs with h | h
        · rcases List.mem_append.1 h with h | h
          · exact Or.inl h
          · simp at h; omega
        · exact Or.inr h

lemma rleRun_mem (zc : Nat) (output freqs : List Nat) (s : Nat)
    (hs : s ∈ (rleRun zc output freqs).1) : s ∈ output ∨ s ≤ 1 :=
  rleZeroRun_mem _ _ _ _ _ hs

lemma mtfShuffle_split (i_name : Nat) :
    ∀ (a : List Nat) (b : List Nat) (n0 r_i : Nat), i_name ∉ a →
      mtfShuffle i_name n0 (a ++ i_name :: b) r_i
        = (n0 :: (a ++ b), some (r_i + a.length)) := by
  intro a
  induction a with
  | nil => intro b n0 r_i _; simp [mtfShuffle]
  | cons x xs ih =>
    intro b n0 r_i hna
    have hx : i_name ≠ x := fun h => hna (by simp [h])
    have hxs : i_name ∉ xs := fun h => hna (by simp [h])
    rw [List.cons_append, mtfShuffle, if_neg hx, ih b x (r_i + 1) hxs]
    simp
    omega

lemma mem_take_split : ∀ (l : List Nat) (n x : Nat), x ∈ l.take n →
    ∃ a b, l = a ++ x :: b ∧ x ∉ a ∧ a.length + 1 ≤ n := by
  intro l
  induction l with
  | nil => intro n x hx; simp at hx
  | cons y ys ih =>
    intro n x hx
    match n with
    | 0 => simp at hx
    | m + 1 =>
      rw [List.take_succ_cons] at hx
      by_cases hxy : x = y
      · exact ⟨[], ys, by simp [hxy], by simp, by simp only [List.length_nil]; omega⟩
      · have hx' : x ∈ ys.take m := by
          rcases List.mem_cons.1 hx with h | h
          · exact absurd h hxy
          · exact h
        obtain ⟨a, b, hab, hna, hlen⟩ := ih m x hx'
        exact ⟨y :: a, b, by simp [hab], by simp [hxy, hna], by simp; omega⟩

lemma recency_step (k i_name p : Nat) (lt : List Nat)
    (hperm : ((p :: lt).take k).Perm (List.range k))
    (hi : i_name < k) (hne : i_name ≠ p) :
    ∃ a b, lt = a ++ i_name :: b ∧
      mtfShuffle i_name p lt 1 = (p :: (a ++ b), some (1 + a.length)) ∧
      1 + a.length + 1 ≤ k ∧
      ((i_name :: p :: (a ++ b)).take k).Perm (List.range k) := by
  obtain ⟨k1, rfl⟩ : ∃ k1, k = k1 + 1 := ⟨k - 1, by omega⟩
  have hmem : i_name ∈ (p :: lt).take (k1 + 1) :=
    (hperm.mem_iff).2 (List.mem_range.2 hi)
  rw [List.take_succ_cons] at hmem
  have hmem2 : i_name ∈ lt.take k1 := by
    rcases List.mem_cons.1 hmem with h | h
    · exact absurd h hne
    · exact h
  obtain ⟨a, b, rfl, hna, hlen⟩ := mem_take_split lt k1 i_name hmem2
  obtain ⟨k2, rfl⟩ : ∃ k2, k1 = k2 + 1 := ⟨k1 - 1, by omega⟩
  refine ⟨a, b, rfl, mtfShuffle_split i_name a b p 1 hna, by omega, ?_⟩
  have h1 : ((i_name :: p :: (a ++ b)).take (k2 + 1 + 1))
      = i_name :: p :: (a ++ b.take (k2 - a.length)) := by
    rw [List.take_succ_cons, List.take_succ_cons, List.take_append_eq_append_take,
      List.take_all_of_le (by omega)]
  have h2 : ((p :: (a ++ i_name :: b)).take (k2 + 1 + 1))
      = p :: (a ++ i_name :: b.take (k2 - a.length)) := by
    rw [List.take_succ_cons, List.take_append_eq_append_take,
      List.take_all_of_le (by omega)]
    congr 2
    have he : k2 + 1 - a.length = (k2 - a.length) + 1 := by omega
    rw [he, List.take_succ_cons]
  rw [h1]
  rw [h2] at hperm
  refine List.Perm.trans ?_ hperm
  refine List.Perm.trans (List.Perm.swap p i_name _) ?_
  exact List.Perm.cons p List.perm_middle.symm

lemma mtfLoop_out (names : List Nat) (k : Nat) (hk : 1 ≤ k)
    (hn : ∀ b, names.getD b 0 < k) :
    ∀ (buf recency : List Nat) (zc : Nat) (output freqs : List Nat),
      ((recency.take k).Perm (List.range k)) →
      (∀ s ∈ output, s ≤ k) →
      ∀ s ∈ (mtfLoop names buf recency zc output freqs).2.2.1, s ≤ k := by
  intro buf
  induction buf with
  | nil =>
    intro recency zc output freqs _ hout
    simpa [mtfLoop] using hout
  | cons x rest ih =>
    intro recency zc output freqs hperm hout
    rw [mtfLoop]
    by_cases hip : names.getD x 0 = recency.getD 0 0
    · rw [if_pos hip]
      exact ih recency (zc + 1) output freqs hperm hout
    · rw [if_neg hip]
      have hrne : recency ≠ [] := by
        intro h
        rw [h] at hperm
        have := hperm.length_eq
        simp [List.length_range] at this
        omega
      obtain ⟨p, lt, rfl⟩ := List.exists_cons_of_ne_nil hrne
      have hip2 : names.getD x 0 ≠ p := by simpa using hip
      obtain ⟨a, b, rfl, hsh, hlen, hperm2⟩ :=
        recency_step k (names.getD x 0) p lt hperm (hn x) hip2
      have hof1 : ∀ s ∈ (if zc ≠ 0 then rleRun zc output freqs else (output, freqs)).1,
          s ≤ k := by
        intro s hs
        by_cases hzc : zc ≠ 0
        · rw [if_pos hzc] at hs
          rcases rleRun_mem zc output freqs s hs with h | h
          · exact hout s h
          · omega
        · rw [if_neg hzc] at hs
          exact hout s hs
      simp only [List.tail_cons, List.getD_cons_zero]
      rw [hsh]
      simp only []
      refine ih _ 0 _ _ hperm2 ?_
      intro s hs
      rcases List.mem_append.1 hs with h | h
      · exact hof1 s h
      · simp at h
        omega

lemma foldl_set_length : ∀ (l : List Nat) (r : List Nat),
    (l.foldl (fun (r : List Nat) n => r.set n n) r).length = r.length := by
  intro l
  induction l with
  | nil => intro r; rfl
  | cons x xs ih => intro r; rw [List.foldl_cons, ih, List.length_set]

lemma recency0_take : ∀ (k : Nat), k ≤ 256 →
    (((List.range k).foldl (fun (r : List Nat) n => r.set n n)
        (List.replicate 256 0)).take k) = List.range k := by
  intro k
  induction k with
  | zero => intro _; simp
  | succ k ih =>
    intro hk
    rw [List.range_succ, List.foldl_append]
    set prev := (List.range k).foldl (fun (r : List Nat) n => r.set n n)
      (List.replicate 256 0) with hprev
    have hlen : prev.length = 256 := by
      rw [hprev, foldl_set_length, List.length_replicate]
    have hget : ∃ v, prev[k]? = some v :=
      ⟨prev.getD k 0, by rw [List.getD_eq_getElem?_getD, List.getElem?_eq_getElem (by omega)]; rfl⟩
    obtain ⟨v, hv⟩ := hget
    rw [List.foldl_cons, List.foldl_nil, List.set_take, List.take_succ, hv, ih (by omega)]
    have hkl : (List.range k).length ≤ k := by rw [List.length_range]
    simp only [Option.toList_some]
    rw [List.set_append_right _ _ hkl]
    simp [List.length_range, List.range_succ]

/-- A presence map holding exactly the bytes 5 and 7 (two distinct bytes,
so `num_names = 2`). -/
def hb57 : List Bool := ((List.replicate 256 false).set 5 true).set 7 true

end Mtf

namespace Huffman

/-!
## The Huffman refinement pass's segment selection (`src/lib/huffman.rs`)

Only the pieces of `encode`'s refinement loop (lines 399-460) needed to
exhibit the zeroing bug are embedded: the per-pass table zeroing, the
per-segment cost sum and the strict minimum-cost table selection.
-/

/-- `usize::MAX`, the initial `best_table_cost`. -/
def usizeMAX : Nat := 18446744073709551615

/-- The coding cost of a segment under a code-length table
(`cost += table[*s as usize]`). -/
def segmentCost (table : List Nat) (seg : List Nat) : Nat :=
  seg.foldl (fun cost s => cost + table.getD s 0) 0

/-- The best-table selection over a segment (`if cost < best_table_cost`,
strict, starting from `best_table = 0`, `best_table_cost = usize::MAX`). -/
def bestTable (tables : List (List Nat)) (seg : List Nat) : Nat :=
  (tables.foldl
    (fun (st : Nat × Nat × Nat) table =>
      let cost := segmentCost table seg
      if cost < st.2.2 then (st.2.1, st.2.1 + 1, cost) else (st.1, st.2.1 + 1, st.2.2))
    (0, 0, usizeMAX)).1

/-- The zeroing applied to each table on every refinement pass after the
first (`for s in 0..num_syms { table[s] = 0 }`). -/
def zeroTable (num_syms : Nat) (table : List Nat) : List Nat :=
  (List.range num_syms).foldl (fun (t : List Nat) s => t.set s 0) table

/-- The per-pass table zeroing over all tables (`for table in &mut tables`). -/
def zeroTables (num_syms : Nat) (tables : List (List Nat)) : List (List Nat) :=
  tables.map (zeroTable num_syms)

lemma zeroTable_succ (n : Nat) (table : List Nat) :
    zeroTable (n + 1) table = (zeroTable n table).set n 0 := by
  unfold zeroTable
  rw [List.range_succ, List.foldl_append, List.foldl_cons, List.foldl_nil]

lemma zeroTable_length (num_syms : Nat) (table : List Nat) :
    (zeroTable num_syms table).length = table.length := by
  induction num_syms with
  | zero => rfl
  | succ n ih => rw [zeroTable_succ, List.length_set, ih]

lemma zeroTable_getD (num_syms : Nat) (table : List Nat) (s : Nat)
    (hs : s < num_syms) (hl : num_syms ≤ table.length) :
    (zeroTable num_syms table).getD s 0 = 0 := by
  induction num_syms with
  | zero => omega
  | succ n ih =>
    rw [zeroTable_succ]
    by_cases hsn : s = n
    · subst hsn
      have hlen : s < (zeroTable s table).length := by rw [zeroTable_length]; omega
      rw [List.getD_eq_getElem?_getD, List.getElem?_set_self hlen]
      rfl
    · rw [List.getD_eq_getElem?_getD, List.getElem?_set_ne (by omega : n ≠ s),
        ← List.getD_eq_getElem?_getD]
      exact ih (by omega) (by omega)

lemma segmentCost_zero (table : List Nat) (seg : List Nat)
    (h : ∀ s ∈ seg, table.getD s 0 = 0) : segmentCost table seg = 0 := by
  unfold segmentCost
  induction seg with
  | nil => rfl
  | cons x xs ih =>
    rw [List.foldl_cons, h x (by simp), Nat.add_zero]
    exact ih (fun s hs => h s (by simp [hs]))

lemma bestTable_all_zero (tables : List (List Nat)) (seg : List Nat)
    (h : ∀ t ∈ tables, segmentCost t seg = 0) (hne : tables ≠ []) :
    bestTable tables seg = 0 := by
  obtain ⟨t0, rest, rfl⟩ := List.exists_cons_of_ne_nil hne
  unfold bestTable
  rw [List.foldl_cons]
  simp only [h t0 (by simp), if_pos (by norm_num [usizeMAX] : (0:Nat) < usizeMAX)]
  suffices hsuf : ∀ (l : List (List Nat)) (st : Nat × Nat × Nat),
      (∀ t ∈ l, segmentCost t seg = 0) → st.1 = 0 → st.2.2 = 0 →
      (l.foldl
        (fun (st : Nat × Nat × Nat) table =>
          let cost := segmentCost table seg
          if cost < st.2.2 then (st.2.1, st.2.1 + 1, cost) else (st.1, st.2.1 + 1, st.2.2))
        st).1 = 0 by
    exact hsuf rest (0, 1, 0) (fun t ht => h t (by simp [ht])) rfl rfl
  intro l
  induction l with
  | nil => intro st _ h1 _; exact h1
  | cons x xs ih =>
    intro st hall h1 h2
    rw [List.foldl_cons]
    simp only [hall x (by simp), h2, if_neg (by omega : ¬ (0:Nat) < 0)]
    exact ih _ (fun t ht => hall t (by simp [ht])) h1 rfl

end Huffman


/-!
## Claim theorems for the first-stage RLE
-/

/-- **C9.** For every reader input and every level in `1..=9`, a single call
to `rle_one` pushes at most `100_000 * level - 1` bytes into the block
buffer; `BoundedBuffer::push` is never invoked with a remaining bound of
zero (its `debug_assert!(self.bound > 0)` always holds, so the bound
subtraction never underflows): the instrumented `violated` flag of the
encoding loop stays `false`, and the output buffer length is bounded by
`100_000 * level - 1`. -/
theorem rle_one_respects_block_bound (input : List Nat) (level : Nat)
    (h1 : 1 ≤ level) (h9 : level ≤ 9) :
    (Rle.rleOneRun input level).1.violated = false ∧
      (Rle.rle_one input level).output.length ≤ 100000 * level - 1 :=
  Rle.rle_one_output_bound input level

/-- Witness for C9 at a concrete input: five repeated bytes at level 1. -/
theorem rle_one_respects_block_bound_witness :
    (Rle.rleOneRun [97, 97, 97, 97, 97] 1).1.violated = false ∧
      (Rle.rle_one [97, 97, 97, 97, 97] 1).output.length ≤ 100000 * 1 - 1 :=
  rle_one_respects_block_bound [97, 97, 97, 97, 97] 1 (by decide) (by decide)

/-- **C10.** For every call in which the reader still yields at least one
unconsumed byte, `rle_one` consumes at least one byte and produces a
non-empty output buffer; consequently the per-block loop of `encode`
(modelled by `encodeConsumed`, whose well-founded recursion is exactly the
strict decrease of the remaining input) terminates and consumes the whole
input. -/
theorem rle_one_progress_encode_terminates (input : List Nat) (level : Nat)
    (hne : input ≠ []) (h1 : 1 ≤ level) (h9 : level ≤ 9) :
    1 ≤ (Rle.rle_one input level).consumed ∧
      (Rle.rle_one input level).output ≠ [] ∧
      Rle.encodeConsumed input level = input.length :=
  ⟨Rle.rle_one_consumed_pos input level hne h1,
   Rle.rle_one_output_ne input level hne h1,
   Rle.encodeConsumed_eq_length level h1 h9 input⟩

/-- Witness for C10 at a concrete input: a two-byte input at level 1. -/
theorem rle_one_progress_encode_terminates_witness :
    1 ≤ (Rle.rle_one [106, 107] 1).consumed ∧
      (Rle.rle_one [106, 107] 1).output ≠ [] ∧
      Rle.encodeConsumed [106, 107] 1 = [106, 107].length :=
  rle_one_progress_encode_terminates [106, 107] 1 (by decide) (by decide) (by decide)


/-- **C2.** On the input "SIX.MIXED.PIXIES.SIFT.SIXTY.PIXIE.DUST.BOXES"
(given to `bwt` as its ASCII bytes) the Burrows-Wheeler transform returns
the byte string "TEXYDST.E.IXIXIXXSSMPPS.B..E.S.EUSFXDIIOIIIT" and the
primary index `ptr = 29`. -/
theorem bwt_six_mixed_expected :
    (Bwt.bwt ("SIX.MIXED.PIXIES.SIFT.SIXTY.PIXIE.DUST.BOXES".data.map Char.toNat)).bwt
        = "TEXYDST.E.IXIXIXXSSMPPS.B..E.S.EUSFXDIIOIIIT".data.map Char.toNat
      ∧ (Bwt.bwt ("SIX.MIXED.PIXIES.SIFT.SIXTY.PIXIE.DUST.BOXES".data.map Char.toNat)).ptr
        = 29 := by
  have hin : "SIX.MIXED.PIXIES.SIFT.SIXTY.PIXIE.DUST.BOXES".data.map Char.toNat
      = Bwt.sixIn := by decide
  have hout : "TEXYDST.E.IXIXIXXSSMPPS.B..E.S.EUSFXDIIOIIIT".data.map Char.toNat
      = Bwt.sixOut := by decide
  rw [hin, hout]
  have h : Bwt.bwt Bwt.sixIn = Bwt.bwtMain Bwt.sixIn := by
    simp only [Bwt.bwt, Bwt.six_len]
    norm_num
  rw [h, Bwt.six_main]
  exact ⟨rfl, rfl⟩

/-- **C8** (counterexample). The refusal threshold is `Idx::MAX / 4 - 1 =
536870910`, not `2^30 = 1073741824`: the all-zero input of length
`536870910 < 2^30`, which the claim says must be accepted, is refused
(`bwt` returns the empty column with `ptr = usize::MAX`). -/
theorem bwt_size_guard_cex :
    (List.replicate 536870910 (0 : Nat)).length < 2 ^ 30 ∧
      (Bwt.bwt (List.replicate 536870910 (0 : Nat))).bwt = [] ∧
      (Bwt.bwt (List.replicate 536870910 (0 : Nat))).ptr = Bwt.usizeMAX := by
  refine ⟨by norm_num, ?_, ?_⟩ <;>
  · simp only [Bwt.bwt, List.length_replicate]
    norm_num [Bwt.usizeMAX]

/-- **C8** (amended). For every input of length at least 2, `bwt` runs the
SA-IS main path exactly when `n < 536870910` (`Idx::MAX / 4 - 1`) and
refuses exactly when `536870910 ≤ n`, answering the empty column and
`ptr = usize::MAX`. -/
theorem bwt_size_guard (input : List Nat) (h2 : 2 ≤ input.length) :
    Bwt.bwt input = if 536870910 ≤ input.length
      then { bwt := [], ptr := Bwt.usizeMAX, has_byte := List.replicate 256 false }
      else Bwt.bwtMain input := by
  have h0 : ¬ (input.length = 0) := by omega
  have h1 : ¬ (input.length = 1) := by omega
  simp only [Bwt.bwt, h0, h1, if_false]

/-- Witness for C8 at the concrete two-byte block `[97, 98]`. -/
theorem bwt_size_guard_witness :
    2 ≤ ([97, 98] : List Nat).length ∧
      Bwt.bwt [97, 98] = if 536870910 ≤ ([97, 98] : List Nat).length
        then { bwt := [], ptr := Bwt.usizeMAX, has_byte := List.replicate 256 false }
        else Bwt.bwtMain [97, 98] :=
  ⟨by decide, bwt_size_guard [97, 98] (by decide)⟩


set_option maxRecDepth 100000 in
/-- **C6** (counterexample). For a block over `k = 2` distinct byte values
(bytes 5 and 7), the MTF+RLE2 output of `[7, 5]` is `[2, 2, 3]`: the EOB
symbol emitted is `3 = k + 1`, and the claimed EOB value `k + 2 = 4` never
occurs in the output. -/
theorem mtf_eob_value_cex :
    (Mtf.namesBuild Mtf.hb57).2 = 2 ∧
      (Mtf.mtf_and_rle [7, 5] Mtf.hb57).output = [2, 2, 3] ∧
      ¬ (2 + 2) ∈ (Mtf.mtf_and_rle [7, 5] Mtf.hb57).output := by decide

/-- **C6** (amended). For every block whose BWT contains `k` distinct byte
values (`1 ≤ k ≤ 256`, as the source asserts), the MTF+RLE2 output is a
sequence over the alphabet `{RUNA = 0, RUNB = 1, 2..k, EOB = k + 1}`: the
body of the output consists of symbols `≤ k`, and the EOB symbol `k + 1`
appears exactly once, as the final output symbol; `num_syms = k + 2` is
the size of that alphabet. -/
theorem mtf_rle2_alphabet (buf : List Nat) (has_byte : List Bool)
    (hk : 1 ≤ (Mtf.namesBuild has_byte).2) (hk2 : (Mtf.namesBuild has_byte).2 ≤ 256) :
    ∃ body,
      (Mtf.mtf_and_rle buf has_byte).output = body ++ [(Mtf.namesBuild has_byte).2 + 1]
      ∧ (∀ s ∈ body, s ≤ (Mtf.namesBuild has_byte).2)
      ∧ (Mtf.mtf_and_rle buf has_byte).num_syms = (Mtf.namesBuild has_byte).2 + 2 := by
  have hn : ∀ b, (Mtf.namesBuild has_byte).1.getD b 0 < (Mtf.namesBuild has_byte).2 := by
    intro b
    have h := Mtf.namesBuild_lt has_byte b
    omega
  have hrec : (((List.range (Mtf.namesBuild has_byte).2).foldl
      (fun (r : List Nat) n => r.set n n) (List.replicate 256 0)).take
        (Mtf.namesBuild has_byte).2).Perm (List.range (Mtf.namesBuild has_byte).2) := by
    rw [Mtf.recency0_take _ hk2]
  have hloop := Mtf.mtfLoop_out (Mtf.namesBuild has_byte).1 (Mtf.namesBuild has_byte).2 hk
    hn buf
    ((List.range (Mtf.namesBuild has_byte).2).foldl (fun (r : List Nat) n => r.set n n)
      (List.replicate 256 0)) 0 [] (List.replicate 258 0) hrec
    (by intro s hs; simp at hs)
  refine ⟨_, rfl, ?_, rfl⟩
  intro s hs
  by_cases hzc : (Mtf.mtfLoop (Mtf.namesBuild has_byte).1 buf
      ((List.range (Mtf.namesBuild has_byte).2).foldl (fun (r : List Nat) n => r.set n n)
        (List.replicate 256 0)) 0 [] (List.replicate 258 0)).2.1 ≠ 0
  · rw [if_pos hzc] at hs
    rcases Mtf.rleRun_mem _ _ _ s hs with h | h
    · exact hloop s h
    · omega
  · rw [if_neg hzc] at hs
    exact hloop s hs

/-- Witness for C6 at the concrete block `[7, 5]` over presence map
`hb57`. -/
theorem mtf_rle2_alphabet_witness :
    (1 ≤ (Mtf.namesBuild Mtf.hb57).2 ∧ (Mtf.namesBuild Mtf.hb57).2 ≤ 256) ∧
    ∃ body,
      (Mtf.mtf_and_rle [7, 5] Mtf.hb57).output = body ++ [(Mtf.namesBuild Mtf.hb57).2 + 1]
      ∧ (∀ s ∈ body, s ≤ (Mtf.namesBuild Mtf.hb57).2)
      ∧ (Mtf.mtf_and_rle [7, 5] Mtf.hb57).num_syms = (Mtf.namesBuild Mtf.hb57).2 + 2 :=
  ⟨⟨by decide, by decide⟩, mtf_rle2_alphabet [7, 5] Mtf.hb57 (by decide) (by decide)⟩


/-- **C4** (supporting theorem for the code bug). On every refinement pass
after the first, `encode` zeroes the code-length tables themselves before
the segment costs are computed (instead of clearing the `table_freqs`
accumulators, which it never does): afterwards every segment's cost under
every table is 0, so the strict `cost < best_table_cost` comparison makes
table 0 win every segment and the claimed minimum-cost refinement
degenerates. -/
theorem huffman_refinement_cost_degenerates (tables : List (List Nat)) (num_syms : Nat)
    (seg : List Nat) (hlen : ∀ t ∈ tables, num_syms ≤ t.length)
    (hseg : ∀ s ∈ seg, s < num_syms) (hne : tables ≠ []) :
    (∀ t ∈ Huffman.zeroTables num_syms tables, Huffman.segmentCost t seg = 0)
    ∧ Huffman.bestTable (Huffman.zeroTables num_syms tables) seg = 0 := by
  have hz : ∀ t ∈ Huffman.zeroTables num_syms tables, Huffman.segmentCost t seg = 0 := by
    intro t ht
    obtain ⟨t0, ht0, rfl⟩ := List.mem_map.1 ht
    exact Huffman.segmentCost_zero _ _
      (fun s hs => Huffman.zeroTable_getD num_syms t0 s (hseg s hs) (hlen t0 ht0))
  refine ⟨hz, Huffman.bestTable_all_zero _ _ hz ?_⟩
  intro h
  apply hne
  simpa [Huffman.zeroTables] using h

/-- Witness for the C4 theorem at two concrete two-symbol tables and one
segment. -/
theorem huffman_refinement_cost_degenerates_witness :
    ((∀ t ∈ [[5, 3], [1, 2]], 2 ≤ t.length) ∧ (∀ s ∈ [0, 1], s < 2)
        ∧ ([[5, 3], [1, 2]] : List (List Nat)) ≠ []) ∧
      (∀ t ∈ Huffman.zeroTables 2 [[5, 3], [1, 2]], Huffman.segmentCost t [0, 1] = 0)
        ∧ Huffman.bestTable (Huffman.zeroTables 2 [[5, 3], [1, 2]]) [0, 1] = 0 :=
  ⟨⟨by decide, by decide, by decide⟩,
   huffman_refinement_cost_degenerates [[5, 3], [1, 2]] 2 [0, 1]
     (by decide) (by decide) (by decide)⟩
